import Mathlib

/-!
# Aquarium simulation (`Source.cpp`): embedding and verified properties

The simulation state of `Source.cpp` (the global variables `fishes`,
`oxygenLevel`, `foodLevel`, `areFishesDying`), the mouse-button callback, the
body of the frame loop that mutates this state, `updateFish`, `initFishes` and
`checkButtonClick` are embedded as pure functions.

The arithmetic is embedded twice.
* Exact model (the top-level definitions): C++ `float`/`double` values are
  exact rationals (`ℚ`) and decimal literals such as `0.02f` denote the decimal
  rational they spell.  It carries the properties that hold whatever the
  rounding: ranges kept by clamps, the structure of the state changes, the
  dying flags, `initFishes`, and the runs that stay away from every threshold.
* Binary32 model (namespace `Binary32`): the same functions with every `float`
  operation rounded to the nearest binary32 value, ties to even (`rnd32`), the
  `double` division of the cursor position rounded to binary64 (`rnd64`), and
  literals standing for their `float` values.  It carries the properties that
  depend on how a comparison comes out at a boundary: the hit test, the click
  dispatch, the wall tests of `updateFish` and the `0.4f` threshold of the
  dying mode.  Overflow to infinity and NaN are not modelled.

Further conventions:
* `rand()` is modelled as reading the next element of an infinite sequence of
  naturals; every sequence is considered possible.
* The `do ... while` rejection loop of `initFishes` may run forever, so the
  embedding of `initFishes` takes a fuel bound and returns an `Option`.
* Rendering, windowing and file I/O do not change the simulation state and
  are not modelled.
-/

namespace Aquiriam

/-! ## Constants and data model -/

/-- Window width in pixels (`const int WINDOW_WIDTH = 800`). -/
def WINDOW_WIDTH : Int := 800

/-- Window height in pixels (`const int WINDOW_HEIGHT = 600`). -/
def WINDOW_HEIGHT : Int := 600

/-- The value of `GLFW_MOUSE_BUTTON_LEFT` in the GLFW headers. -/
def GLFW_MOUSE_BUTTON_LEFT : Int := 0

/-- The value of `GLFW_PRESS` in the GLFW headers. -/
def GLFW_PRESS : Int := 1

/-- The record `struct Fish`. -/
structure Fish where
  x : ℚ
  y : ℚ
  dx : ℚ
  dy : ℚ
  size : ℚ
  facingRight : Bool
  happiness : ℚ
  isDying : Bool := false
  deriving DecidableEq

/-- The record `struct Button`. -/
structure Button where
  x : ℚ
  y : ℚ
  width : ℚ
  height : ℚ
  label : String
  deriving DecidableEq

/-- The global `feedButton`. -/
def feedButton : Button := ⟨0.45, -0.85, 0.4, 0.12, "Feed Food"⟩

/-- The global `oxygenButton`. -/
def oxygenButton : Button := ⟨-0.85, -0.85, 0.4, 0.12, "Give Oxygen"⟩

/-- The mutable globals of the simulation: `fishes`, `oxygenLevel`,
`foodLevel` and `areFishesDying`. -/
structure World where
  fishes : List Fish
  oxygenLevel : ℚ
  foodLevel : ℚ
  areFishesDying : Bool
  deriving DecidableEq

/-- The state of the C library random generator: the infinite sequence of
values that `rand()` returns over the run, and how many were consumed. -/
structure RandStream where
  seq : Nat → Nat
  pos : Nat

/-- One call of `rand()`: the value returned and the generator afterwards. -/
def rand (r : RandStream) : Nat × RandStream := (r.seq r.pos, { r with pos := r.pos + 1 })

/-! ## `checkButtonClick` and the mouse-button callback (exact model) -/

/-- The function `checkButtonClick`. -/
def checkButtonClick (btn : Button) (mx my : ℚ) : Bool :=
  decide (mx ≥ btn.x) && decide (mx ≤ btn.x + btn.width) &&
    decide (my ≥ btn.y) && decide (my ≤ btn.y + btn.height)

/-- Body of the loop over `fishes` in the feed branch of the callback. -/
def feedHappiness (f : Fish) : Fish :=
  let f := { f with happiness := f.happiness + 0.4 }
  if f.happiness > 1 then { f with happiness := 1 } else f

/-- The lambda registered with `glfwSetMouseButtonCallback`; `mx`, `my` are the
cursor position returned by `glfwGetCursorPos`. -/
def mouseButtonCallback (w : World) (button action : Int) (mx my : ℚ) : World :=
  if button = GLFW_MOUSE_BUTTON_LEFT ∧ action = GLFW_PRESS then
    let nx : ℚ := mx / (WINDOW_WIDTH : ℚ) * 2 - 1
    let ny : ℚ := 1 - my / (WINDOW_HEIGHT : ℚ) * 2
    if checkButtonClick feedButton nx ny then
      let w := { w with foodLevel := w.foodLevel + 0.8 }
      let w := if w.foodLevel > 1 then { w with foodLevel := 1 } else w
      { w with fishes := w.fishes.map feedHappiness }
    else if checkButtonClick oxygenButton nx ny then
      let w := { w with oxygenLevel := w.oxygenLevel + 0.8 }
      if w.oxygenLevel > 1 then { w with oxygenLevel := 1 } else w
    else w
  else w

/-! ## `updateFish` (exact model) -/

/-- The function `updateFish`. -/
def updateFish (f : Fish) (dt : ℚ) : Fish :=
  if f.isDying then
    let f := { f with dx := 0 }
    let f := { f with dy := -0.1 }
    let f := { f with x := f.x + f.dx * dt }
    let f := { f with y := f.y + f.dy * dt }
    if f.y < -1 then { f with y := -1 } else f
  else
    let f := { f with x := f.x + f.dx * dt }
    let f := { f with y := f.y + f.dy * dt }
    let halfSizeX : ℚ := f.size / 2
    let halfSizeY : ℚ := halfSizeX * ((WINDOW_HEIGHT : ℚ) / (WINDOW_WIDTH : ℚ))
    let f :=
      if f.y - halfSizeY < -1 then { f with y := -1 + halfSizeY, dy := -f.dy }
      else if f.y + halfSizeY > 1 then { f with y := 1 - halfSizeY, dy := -f.dy }
      else f
    if f.x - halfSizeX < -1 then
      { f with x := -1 + halfSizeX, dx := -f.dx, facingRight := true }
    else if f.x + halfSizeX > 1 then
      { f with x := 1 - halfSizeX, dx := -f.dx, facingRight := false }
    else f

/-! ## The frame loop body (exact model) -/

/-- The loop of the leave-dying branch: every fish gets `isDying = false` and a
velocity drawn with two calls of `rand()`. -/
def reviveFishes : List Fish → RandStream → List Fish × RandStream
  | [], r => ([], r)
  | f :: fs, r =>
    let f := { f with isDying := false }
    let a := rand r
    let f := { f with dx := (((a.1 % 200 : Nat) : ℚ) / 100 - 1) * 0.5 }
    let b := rand a.2
    let f := { f with dy := (((b.1 % 200 : Nat) : ℚ) / 100 - 1) * 0.3 }
    let rest := reviveFishes fs b.2
    (f :: rest.1, rest.2)

/-- Body of the per-fish loop of the frame: dying mark, happiness decay and
clamp, then `updateFish`. -/
def tickFish (areFishesDying : Bool) (foodLevel dt : ℚ) (f : Fish) : Fish :=
  let f := if areFishesDying then { f with isDying := true } else f
  let f := { f with happiness := f.happiness - dt * 0.02 * (1 - foodLevel) }
  let f := if f.happiness > 1 then { f with happiness := 1 } else f
  let f := if f.happiness < 0 then { f with happiness := 0 } else f
  updateFish f dt

/-- The decay and clamp of the two levels at the start of a frame. -/
def decayLevels (w : World) (dt : ℚ) : World :=
  let w := { w with oxygenLevel := w.oxygenLevel - dt * 0.02 }
  let w := { w with foodLevel := w.foodLevel - dt * 0.04 }
  let w := if w.oxygenLevel < 0 then { w with oxygenLevel := 0 } else w
  if w.foodLevel < 0 then { w with foodLevel := 0 } else w

/-- The dying-mode transition of a frame (the `if ... else if` after the
clamp), on the levels already decayed. -/
def dyingTransition (w : World) (r : RandStream) : World × RandStream :=
  if (decide (w.foodLevel ≤ 0) || decide (w.oxygenLevel ≤ 0)) && !w.areFishesDying then
    ({ w with areFishesDying := true }, r)
  else if (decide (w.foodLevel > 0.4) && decide (w.oxygenLevel > 0.4)) && w.areFishesDying then
    let w := { w with areFishesDying := false }
    let fr := reviveFishes w.fishes r
    ({ w with fishes := fr.1 }, fr.2)
  else (w, r)

/-- The state-changing part of one iteration of the `while` loop of `main`,
for elapsed time `dt`. -/
def frameStep (w : World) (r : RandStream) (dt : ℚ) : World × RandStream :=
  let w := decayLevels w dt
  let wr := dyingTransition w r
  let w := wr.1
  ({ w with fishes := w.fishes.map (tickFish w.areFishesDying w.foodLevel dt) }, wr.2)

/-! ## `initFishes` (exact model) -/

/-- The `do ... while` loop of `initFishes`: draw `dx`, `dy` until neither is
zero.  `none` when the fuel runs out first. -/
def drawVelocity : Nat → RandStream → Option ((ℚ × ℚ) × RandStream)
  | 0, _ => none
  | fuel + 1, r =>
    let a := rand r
    let dx : ℚ := (((a.1 % 200 : Nat) : ℚ) / 100 - 1) * 0.5
    let b := rand a.2
    let dy : ℚ := (((b.1 % 200 : Nat) : ℚ) / 100 - 1) * 0.3
    if dx = 0 ∨ dy = 0 then drawVelocity fuel b.2 else some ((dx, dy), b.2)

/-- The `for` loop of `initFishes`, with `n` iterations left and `acc` the
vector built so far. -/
def initLoop (fuel : Nat) : Nat → List Fish → RandStream → Option (List Fish × RandStream)
  | 0, acc, r => some (acc, r)
  | n + 1, acc, r =>
    let a := rand r
    let size : ℚ := 0.15 + ((a.1 % 90 : Nat) : ℚ) / 1000
    let b := rand a.2
    let x : ℚ := ((b.1 % 2000 : Nat) : ℚ) / 1000 - 1
    let c := rand b.2
    let y : ℚ := ((c.1 % 2000 : Nat) : ℚ) / 1000 - 1
    match drawVelocity fuel c.2 with
    | none => none
    | some (v, r) =>
      let f : Fish :=
        { x := x, y := y, dx := v.1, dy := v.2, size := size,
          facingRight := decide (v.1 > 0), happiness := 1 }
      initLoop fuel n (acc ++ [f]) r

/-- The function `initFishes`: the new contents of `fishes` and the generator
afterwards; `fuel` bounds the iterations of each rejection loop. -/
def initFishes (fuel : Nat) (count : Int) (r : RandStream) : Option (List Fish × RandStream) :=
  initLoop fuel count.toNat [] r

/-! ## Binary floating-point arithmetic

The C++ `float` operations of `Source.cpp` are IEEE 754 binary32 operations:
the exact result rounded to the nearest binary32 value, ties to even.  Values
are kept as rationals and every operation rounds explicitly, subnormal
results included.  Overflow to infinity and NaN are not modelled: a result
beyond the binary32 range is kept as the rounded rational. -/

/-- Round a rational to the nearest integer, ties to the even integer. -/
def roundEven (q : ℚ) : ℤ :=
  if q - ⌊q⌋ < 1 / 2 then ⌊q⌋
  else if 1 / 2 < q - ⌊q⌋ then ⌊q⌋ + 1
  else if ⌊q⌋ % 2 = 0 then ⌊q⌋ else ⌊q⌋ + 1

/-- Binary logarithm of a natural number, rounded down (`0` for `0`), by
halving; `fuel` bounds the number of halvings. -/
def log2Fuel : Nat → Nat → Nat
  | 0, _ => 0
  | fuel + 1, n => if 2 ≤ n then log2Fuel fuel (n / 2) + 1 else 0

/-- The binary exponent of a rational `q ≠ 0`: the integer `e` with
`2^e ≤ |q| < 2^(e+1)`, found from the logarithms of numerator and
denominator. -/
def floorLog2 (q : ℚ) : ℤ :=
  let k : ℤ := (log2Fuel q.num.natAbs q.num.natAbs : ℤ) - (log2Fuel q.den q.den : ℤ)
  if (2 : ℚ) ^ k ≤ |q| then k else k - 1

/-- Exponent of the unit in the last place of `q` in a binary format with `p`
significand bits and least normal exponent `emin` (subnormals share the
exponent `emin`). -/
def ulpExp (p : Nat) (emin : ℤ) (q : ℚ) : ℤ := max (floorLog2 q) emin - ((p : ℤ) - 1)

/-- Round-to-nearest-even into the binary format with `p` significand bits and
least normal exponent `emin`. -/
def roundFloat (p : Nat) (emin : ℤ) (q : ℚ) : ℚ :=
  (roundEven (q / 2 ^ ulpExp p emin q) : ℚ) * 2 ^ ulpExp p emin q

/-- Rounding to binary32 (`float`): 24 significand bits, least exponent -126. -/
def rnd32 (q : ℚ) : ℚ := roundFloat 24 (-126) q

/-- Rounding to binary64 (`double`): 53 significand bits, least exponent -1022. -/
def rnd64 (q : ℚ) : ℚ := roundFloat 53 (-1022) q

/-- The rational `q` is a binary32 value: rounding leaves it unchanged (the
upper limit of the format is not modelled). -/
def IsF32 (q : ℚ) : Prop := rnd32 q = q

instance (q : ℚ) : Decidable (IsF32 q) := by
  unfold IsF32; infer_instance

namespace Binary32

/-- The `float` addition `a + b`. -/
def add (a b : ℚ) : ℚ := rnd32 (a + b)

/-- The `float` subtraction `a - b`. -/
def sub (a b : ℚ) : ℚ := rnd32 (a - b)

/-- The `float` multiplication `a * b`. -/
def mul (a b : ℚ) : ℚ := rnd32 (a * b)

/-- The `float` division `a / b`. -/
def div (a b : ℚ) : ℚ := rnd32 (a / b)

/-- The global `feedButton`, its fields the `float` values of the literals. -/
def feedButton : Button := ⟨rnd32 0.45, rnd32 (-0.85), rnd32 0.4, rnd32 0.12, "Feed Food"⟩

/-- The global `oxygenButton`, its fields the `float` values of the literals. -/
def oxygenButton : Button := ⟨rnd32 (-0.85), rnd32 (-0.85), rnd32 0.4, rnd32 0.12, "Give Oxygen"⟩

/-- The function `checkButtonClick`, the two sums computed in `float`. -/
def checkButtonClick (btn : Button) (mx my : ℚ) : Bool :=
  decide (mx ≥ btn.x) && decide (mx ≤ add btn.x btn.width) &&
    decide (my ≥ btn.y) && decide (my ≤ add btn.y btn.height)

/-- Body of the loop over `fishes` in the feed branch of the callback. -/
def feedHappiness (f : Fish) : Fish :=
  let f := { f with happiness := add f.happiness (rnd32 0.4) }
  if f.happiness > 1 then { f with happiness := 1 } else f

/-- The local `nx` of the callback, `(float)(mx / WINDOW_WIDTH) * 2.0f - 1.0f`:
the quotient is a `double` division, converted to `float`. -/
def ndcX (mx : ℚ) : ℚ := sub (mul (rnd32 (rnd64 (mx / (WINDOW_WIDTH : ℚ)))) 2) 1

/-- The local `ny` of the callback, `1.0f - (float)(my / WINDOW_HEIGHT) * 2.0f`. -/
def ndcY (my : ℚ) : ℚ := sub 1 (mul (rnd32 (rnd64 (my / (WINDOW_HEIGHT : ℚ)))) 2)

/-- The lambda registered with `glfwSetMouseButtonCallback`; `mx`, `my` are the
`double` cursor position returned by `glfwGetCursorPos`. -/
def mouseButtonCallback (w : World) (button action : Int) (mx my : ℚ) : World :=
  if button = GLFW_MOUSE_BUTTON_LEFT ∧ action = GLFW_PRESS then
    let nx : ℚ := ndcX mx
    let ny : ℚ := ndcY my
    if checkButtonClick feedButton nx ny then
      let w := { w with foodLevel := add w.foodLevel (rnd32 0.8) }
      let w := if w.foodLevel > 1 then { w with foodLevel := 1 } else w
      { w with fishes := w.fishes.map feedHappiness }
    else if checkButtonClick oxygenButton nx ny then
      let w := { w with oxygenLevel := add w.oxygenLevel (rnd32 0.8) }
      if w.oxygenLevel > 1 then { w with oxygenLevel := 1 } else w
    else w
  else w

/-- The function `updateFish`. -/
def updateFish (f : Fish) (dt : ℚ) : Fish :=
  if f.isDying then
    let f := { f with dx := 0 }
    let f := { f with dy := rnd32 (-0.1) }
    let f := { f with x := add f.x (mul f.dx dt) }
    let f := { f with y := add f.y (mul f.dy dt) }
    if f.y < -1 then { f with y := -1 } else f
  else
    let f := { f with x := add f.x (mul f.dx dt) }
    let f := { f with y := add f.y (mul f.dy dt) }
    let halfSizeX : ℚ := div f.size 2
    let halfSizeY : ℚ := mul halfSizeX (div (rnd32 (WINDOW_HEIGHT : ℚ)) (rnd32 (WINDOW_WIDTH : ℚ)))
    let f :=
      if sub f.y halfSizeY < -1 then { f with y := add (-1) halfSizeY, dy := -f.dy }
      else if add f.y halfSizeY > 1 then { f with y := sub 1 halfSizeY, dy := -f.dy }
      else f
    if sub f.x halfSizeX < -1 then
      { f with x := add (-1) halfSizeX, dx := -f.dx, facingRight := true }
    else if add f.x halfSizeX > 1 then
      { f with x := sub 1 halfSizeX, dx := -f.dx, facingRight := false }
    else f

/-- The loop of the leave-dying branch: every fish gets `isDying = false` and a
velocity drawn with two calls of `rand()`. -/
def reviveFishes : List Fish → RandStream → List Fish × RandStream
  | [], r => ([], r)
  | f :: fs, r =>
    let f := { f with isDying := false }
    let a := rand r
    let f := { f with dx := mul (sub (div ((a.1 % 200 : Nat) : ℚ) 100) 1) (rnd32 0.5) }
    let b := rand a.2
    let f := { f with dy := mul (sub (div ((b.1 % 200 : Nat) : ℚ) 100) 1) (rnd32 0.3) }
    let rest := reviveFishes fs b.2
    (f :: rest.1, rest.2)

/-- Body of the per-fish loop of the frame: dying mark, happiness decay and
clamp, then `updateFish`. -/
def tickFish (areFishesDying : Bool) (foodLevel dt : ℚ) (f : Fish) : Fish :=
  let f := if areFishesDying then { f with isDying := true } else f
  let f := { f with happiness := sub f.happiness (mul (mul dt (rnd32 0.02)) (sub 1 foodLevel)) }
  let f := if f.happiness > 1 then { f with happiness := 1 } else f
  let f := if f.happiness < 0 then { f with happiness := 0 } else f
  updateFish f dt

/-- The decay and clamp of the two levels at the start of a frame. -/
def decayLevels (w : World) (dt : ℚ) : World :=
  let w := { w with oxygenLevel := sub w.oxygenLevel (mul dt (rnd32 0.02)) }
  let w := { w with foodLevel := sub w.foodLevel (mul dt (rnd32 0.04)) }
  let w := if w.oxygenLevel < 0 then { w with oxygenLevel := 0 } else w
  if w.foodLevel < 0 then { w with foodLevel := 0 } else w

/-- The dying-mode transition of a frame (the `if ... else if` after the
clamp), on the levels already decayed; the threshold for leaving dying mode
is the `float` constant `0.4f`. -/
def dyingTransition (w : World) (r : RandStream) : World × RandStream :=
  if (decide (w.foodLevel ≤ 0) || decide (w.oxygenLevel ≤ 0)) && !w.areFishesDying then
    ({ w with areFishesDying := true }, r)
  else if (decide (w.foodLevel > rnd32 0.4) && decide (w.oxygenLevel > rnd32 0.4))
      && w.areFishesDying then
    let w := { w with areFishesDying := false }
    let fr := reviveFishes w.fishes r
    ({ w with fishes := fr.1 }, fr.2)
  else (w, r)

/-- The state-changing part of one iteration of the `while` loop of `main`,
for elapsed time `dt` (a `float`). -/
def frameStep (w : World) (r : RandStream) (dt : ℚ) : World × RandStream :=
  let w := decayLevels w dt
  let wr := dyingTransition w r
  let w := wr.1
  ({ w with fishes := w.fishes.map (tickFish w.areFishesDying w.foodLevel dt) }, wr.2)

end Binary32

/-! ## Predicates and runs used in the statements -/

/-- The range invariant of the simulation state: both levels and every fish's
happiness lie in `[0, 1]`. -/
def InRange (w : World) : Prop :=
  (0 ≤ w.oxygenLevel ∧ w.oxygenLevel ≤ 1) ∧ (0 ≤ w.foodLevel ∧ w.foodLevel ≤ 1) ∧
    ∀ f ∈ w.fishes, 0 ≤ f.happiness ∧ f.happiness ≤ 1

instance (w : World) : Decidable (InRange w) := by
  unfold InRange; infer_instance

/-- The fields of a fish that a click must leave alone: position, velocity,
size, facing and the dying flag (everything except happiness). -/
def Fish.body (f : Fish) : ℚ × ℚ × ℚ × ℚ × ℚ × Bool × Bool :=
  (f.x, f.y, f.dx, f.dy, f.size, f.facingRight, f.isDying)

/-- A sample fish: the one of the reflection example (`x = 0.95`, `dx = 0.5`,
`size = 0.2`). -/
def sampleFish : Fish :=
  { x := 0.95, y := 0, dx := 0.5, dy := 0.1, size := 0.2, facingRight := true, happiness := 0.7 }

/-- A sample state with full oxygen, food at `0.9` and one fish. -/
def sampleWorld : World :=
  { fishes := [sampleFish], oxygenLevel := 1, foodLevel := 0.9, areFishesDying := false }

/-- A generator whose every call of `rand()` returns `n`. -/
def constRand (n : Nat) : RandStream := { seq := fun _ => n, pos := 0 }

/-- States of the program at a frame boundary, with the generator state:
`main` loads both levels (clamped to `[0, 1]`, or left at `1`), calls
`initFishes count` (with `count = 8` in `main`) with `areFishesDying` false, and
then alternates frame steps (any `dt ≥ 0`) and mouse events. -/
inductive Reachable (count : Int) : World × RandStream → Prop
  | start (fuel : Nat) (r r2 : RandStream) (fs : List Fish) (oxygen food : ℚ) :
      initFishes fuel count r = some (fs, r2) → 0 ≤ oxygen → oxygen ≤ 1 → 0 ≤ food → food ≤ 1 →
      Reachable count (⟨fs, oxygen, food, false⟩, r2)
  | frame (s : World × RandStream) (dt : ℚ) :
      Reachable count s → 0 ≤ dt → Reachable count (frameStep s.1 s.2 dt)
  | click (s : World × RandStream) (button action : Int) (mx my : ℚ) :
      Reachable count s → Reachable count (mouseButtonCallback s.1 button action mx my, s.2)

/-- A run of `main` up to a starved, then replenished tank.  `rand()` returns
`1150` for the 40 calls of `initFishes(8)` (every fish: `size = 0.22`,
`x = y = 0.15`, `dx = 0.25`, `dy = 0.15`, facing right) and `later` from then
on; both levels start at `1`.  A frame of `dt = 30` empties the food level, so
the tank enters dying mode and every fish sinks to `y = -1`; then one press on
the feed button (pixel `(600, 540)`) and one on the oxygen button (pixel
`(100, 540)`) bring food to `0.8` and oxygen to `1`.  The result is the state
before the next frame. -/
def sunkRun (later : Nat) : Option (World × RandStream) :=
  (initFishes 1 8 { seq := fun n => if n < 40 then 1150 else later, pos := 0 }).map fun p =>
    let s1 := frameStep ⟨p.1, 1, 1, false⟩ p.2 30
    let w2 := mouseButtonCallback s1.1 GLFW_MOUSE_BUTTON_LEFT GLFW_PRESS 600 540
    (mouseButtonCallback w2 GLFW_MOUSE_BUTTON_LEFT GLFW_PRESS 100 540, s1.2)

/-- The first frame (`dt = 1/60`) of a run of `main` in which every call of
`rand()` returns `6101`: `initFishes(8)` gives every fish `size = 0.221`,
`x = y = -0.899`, `dx = 0.005`, `dy = 0.003` and `facingRight = true`, so each
fish overlaps the left wall while moving away from it. -/
def wallRun : Option (World × RandStream) :=
  (initFishes 1 8 (constRand 6101)).map fun p => frameStep ⟨p.1, 1, 1, false⟩ p.2 (1 / 60)

/-- The postcondition of `initFishes` on one fish: `size` in `[0.15, 0.24]`,
`x` and `y` in `[-1, 1]`, `dx` in `[-0.5, 0.5]` and `dy` in `[-0.3, 0.3]`, both
nonzero, `facingRight = (dx > 0)`, `happiness = 1` and `isDying = false`. -/
def Spawned (f : Fish) : Prop :=
  (0.15 ≤ f.size ∧ f.size ≤ 0.24) ∧ (-1 ≤ f.x ∧ f.x ≤ 1) ∧ (-1 ≤ f.y ∧ f.y ≤ 1) ∧
    (-0.5 ≤ f.dx ∧ f.dx ≤ 0.5) ∧ (-0.3 ≤ f.dy ∧ f.dy ≤ 0.3) ∧ f.dx ≠ 0 ∧ f.dy ≠ 0 ∧
    f.facingRight = decide (f.dx > 0) ∧ f.happiness = 1 ∧ f.isDying = false

instance (f : Fish) : Decidable (Spawned f) := by
  unfold Spawned; infer_instance

/-- The per-fish dying flags agree with the global dying mode. -/
def FlagsTrack (w : World) : Prop :=
  ∀ f ∈ w.fishes, f.isDying = w.areFishesDying

instance (w : World) : Decidable (FlagsTrack w) := by
  unfold FlagsTrack; infer_instance

/-- The fish that the per-fish loop of the frame hands to `updateFish`: the
body of the loop up to the call (dying mark, happiness decay and clamp). -/
def beforeUpdate (areFishesDying : Bool) (foodLevel dt : ℚ) (f : Fish) : Fish :=
  let f := if areFishesDying then { f with isDying := true } else f
  let f := { f with happiness := f.happiness - dt * 0.02 * (1 - foodLevel) }
  let f := if f.happiness > 1 then { f with happiness := 1 } else f
  if f.happiness < 0 then { f with happiness := 0 } else f

/-- The fish every iteration of `initFishes` builds when each call of `rand()`
returns `1150`. -/
def spawnedFish : Fish :=
  { x := 0.15, y := 0.15, dx := 0.25, dy := 0.15, size := 0.22, facingRight := true,
    happiness := 1 }

/-- The state of `main` after `initFishes(8)` when each call of `rand()` returns
`1150` and both levels are `1`, with the generator after its 40 calls. -/
def spawnState : World × RandStream :=
  (⟨List.replicate 8 spawnedFish, 1, 1, false⟩, { seq := fun _ => 1150, pos := 40 })

/-- A swimming fish just inside the right wall test: `x = 0.875 + 2^-24`
(a binary32 value), `size = 0.25`, horizontal velocity `dx`. -/
def nearWallFish (dx : ℚ) : Fish :=
  { x := 0.875 + 2 ^ (-24 : ℤ), y := 0, dx := dx, dy := 0, size := 0.25, facingRight := true,
    happiness := 1 }

/-- A swimming fish that the exact sums put across the left wall test:
`x = -0.875`, `dx = -0.5`, `size = 0.25`, facing left (to be moved by
`dt = 2^-26`). -/
def leftWallFish : Fish :=
  { x := -0.875, y := 0, dx := -0.5, dy := 0, size := 0.25, facingRight := false,
    happiness := 1 }

/-- The fish of the reflection example in `float` values: `x = 0.95f`,
`dx = 0.5`, `size = 0.2f`. -/
def cornerFish : Fish :=
  { x := rnd32 0.95, y := 0, dx := 0.5, dy := 0, size := rnd32 0.2, facingRight := true,
    happiness := rnd32 0.7 }

/-- A state with one fish, oxygen `0.1f`, food `0.9f`, not dying. -/
def floatWorld : World := ⟨[cornerFish], rnd32 0.1, rnd32 0.9, false⟩

/-- A state with no fish, both levels at `0.1f`, not dying. -/
def lowWorld : World := ⟨[], rnd32 0.1, rnd32 0.1, false⟩

/-! ## Basic facts about the embedded functions -/

theorem updateFish_happiness (f : Fish) (dt : ℚ) :
    (updateFish f dt).happiness = f.happiness := by
  unfold updateFish
  dsimp only
  split_ifs <;> rfl

theorem tickFish_happiness_range (d : Bool) (food dt : ℚ) (f : Fish) :
    0 ≤ (tickFish d food dt f).happiness ∧ (tickFish d food dt f).happiness ≤ 1 := by
  unfold tickFish
  rw [updateFish_happiness]
  dsimp only
  split_ifs <;> simp_all

theorem feedHappiness_eq (f : Fish) :
    feedHappiness f = { f with happiness := min 1 (f.happiness + 0.4) } := by
  unfold feedHappiness
  dsimp only
  split_ifs with h1
  · rw [min_eq_left h1.le]
  · rw [min_eq_right (not_lt.mp h1)]

theorem feedHappiness_range (f : Fish) (h : 0 ≤ f.happiness) :
    0 ≤ (feedHappiness f).happiness ∧ (feedHappiness f).happiness ≤ 1 := by
  rw [feedHappiness_eq]
  dsimp only
  exact ⟨le_min (by norm_num) (by linarith), min_le_left _ _⟩

theorem decayLevels_fishes (w : World) (dt : ℚ) : (decayLevels w dt).fishes = w.fishes := by
  unfold decayLevels; dsimp only; split_ifs <;> rfl

theorem decayLevels_dying (w : World) (dt : ℚ) :
    (decayLevels w dt).areFishesDying = w.areFishesDying := by
  unfold decayLevels; dsimp only; split_ifs <;> rfl

theorem decayLevels_oxygen (w : World) (dt : ℚ) :
    (decayLevels w dt).oxygenLevel = max 0 (w.oxygenLevel - dt * 0.02) := by
  unfold decayLevels; dsimp only
  split_ifs with h1 h2 h2 <;> dsimp only at * <;> symm
  · exact max_eq_left h1.le
  · exact max_eq_left h1.le
  · exact max_eq_right (not_lt.mp h1)
  · exact max_eq_right (not_lt.mp h1)

theorem decayLevels_food (w : World) (dt : ℚ) :
    (decayLevels w dt).foodLevel = max 0 (w.foodLevel - dt * 0.04) := by
  unfold decayLevels; dsimp only
  split_ifs with h1 h2 h2 <;> dsimp only at * <;> symm
  · exact max_eq_left h2.le
  · exact max_eq_right (not_lt.mp h2)
  · exact max_eq_left h2.le
  · exact max_eq_right (not_lt.mp h2)

theorem dyingTransition_oxygen (w : World) (r : RandStream) :
    (dyingTransition w r).1.oxygenLevel = w.oxygenLevel := by
  unfold dyingTransition; dsimp only; split_ifs <;> rfl

theorem dyingTransition_food (w : World) (r : RandStream) :
    (dyingTransition w r).1.foodLevel = w.foodLevel := by
  unfold dyingTransition; dsimp only; split_ifs <;> rfl

theorem frameStep_oxygen (w : World) (r : RandStream) (dt : ℚ) :
    (frameStep w r dt).1.oxygenLevel = max 0 (w.oxygenLevel - dt * 0.02) := by
  unfold frameStep; dsimp only
  rw [dyingTransition_oxygen, decayLevels_oxygen]

theorem frameStep_food (w : World) (r : RandStream) (dt : ℚ) :
    (frameStep w r dt).1.foodLevel = max 0 (w.foodLevel - dt * 0.04) := by
  unfold frameStep; dsimp only
  rw [dyingTransition_food, decayLevels_food]

theorem frameStep_dying (w : World) (r : RandStream) (dt : ℚ) :
    (frameStep w r dt).1.areFishesDying = (dyingTransition (decayLevels w dt) r).1.areFishesDying := by
  unfold frameStep; rfl

theorem frameStep_inRange (w : World) (r : RandStream) (dt : ℚ)
    (hw : InRange w) (hdt : 0 ≤ dt) : InRange (frameStep w r dt).1 := by
  obtain ⟨⟨_, ho1⟩, ⟨_, hf1⟩, _⟩ := hw
  refine ⟨?_, ?_, ?_⟩
  · rw [frameStep_oxygen]
    refine ⟨le_max_left _ _, max_le (by norm_num) ?_⟩
    have : 0 ≤ dt * 0.02 := mul_nonneg hdt (by norm_num)
    linarith
  · rw [frameStep_food]
    refine ⟨le_max_left _ _, max_le (by norm_num) ?_⟩
    have : 0 ≤ dt * 0.04 := mul_nonneg hdt (by norm_num)
    linarith
  · intro f hf
    unfold frameStep at hf
    dsimp only at hf
    obtain ⟨g, _, rfl⟩ := List.mem_map.mp hf
    exact tickFish_happiness_range _ _ _ _

theorem mouseButtonCallback_inRange (w : World) (button action : Int) (mx my : ℚ)
    (hw : InRange w) : InRange (mouseButtonCallback w button action mx my) := by
  obtain ⟨⟨ho0, ho1⟩, ⟨hf0, hf1⟩, hh⟩ := hw
  have hfish : ∀ f ∈ w.fishes.map feedHappiness, 0 ≤ f.happiness ∧ f.happiness ≤ 1 := by
    intro f hf
    obtain ⟨g, hg, rfl⟩ := List.mem_map.mp hf
    exact feedHappiness_range g (hh g hg).1
  unfold mouseButtonCallback
  dsimp only
  split_ifs with h1 h2 h3 h4 h5 <;> unfold InRange <;> try dsimp only
  · exact ⟨⟨ho0, ho1⟩, ⟨by norm_num, le_refl _⟩, hfish⟩
  · exact ⟨⟨ho0, ho1⟩, ⟨by linarith, by linarith⟩, hfish⟩
  · exact ⟨⟨by norm_num, le_refl _⟩, ⟨hf0, hf1⟩, hh⟩
  · exact ⟨⟨by linarith, by linarith⟩, ⟨hf0, hf1⟩, hh⟩
  · exact ⟨⟨ho0, ho1⟩, ⟨hf0, hf1⟩, hh⟩
  · exact ⟨⟨ho0, ho1⟩, ⟨hf0, hf1⟩, hh⟩

theorem sampleWorld_inRange : InRange sampleWorld := by
  unfold InRange sampleWorld sampleFish
  norm_num

theorem updateFish_isDying (f : Fish) (dt : ℚ) : (updateFish f dt).isDying = f.isDying := by
  unfold updateFish
  dsimp only
  split_ifs <;> rfl

theorem updateFish_size (f : Fish) (dt : ℚ) : (updateFish f dt).size = f.size := by
  unfold updateFish
  dsimp only
  split_ifs <;> rfl

theorem feedHappiness_body (f : Fish) : (feedHappiness f).body = f.body := by
  rw [feedHappiness_eq]
  rfl

theorem mouseButtonCallback_dying (w : World) (button action : Int) (mx my : ℚ) :
    (mouseButtonCallback w button action mx my).areFishesDying = w.areFishesDying := by
  unfold mouseButtonCallback
  dsimp only
  split_ifs <;> rfl

theorem mouseButtonCallback_body (w : World) (button action : Int) (mx my : ℚ) :
    (mouseButtonCallback w button action mx my).fishes.map Fish.body = w.fishes.map Fish.body := by
  have hmap : (w.fishes.map feedHappiness).map Fish.body = w.fishes.map Fish.body := by
    rw [List.map_map]
    exact List.map_congr_left (fun f _ => feedHappiness_body f)
  unfold mouseButtonCallback
  dsimp only
  split_ifs <;> first | rfl | exact hmap

/-! ## Rounding: error bounds -/

theorem log2Fuel_eq (fuel n : Nat) (h : n ≤ fuel) : log2Fuel fuel n = Nat.log 2 n := by
  induction fuel generalizing n with
  | zero =>
    have : n = 0 := by omega
    subst this
    simp [log2Fuel]
  | succ fuel ih =>
    unfold log2Fuel
    split_ifs with h2
    · rw [ih (n / 2) (by omega)]
      exact (Nat.log_of_one_lt_of_le (by norm_num) h2).symm
    · exact (Nat.log_of_lt (by omega)).symm

/-- The exponent computed by `floorLog2` is the integer binary logarithm. -/
theorem floorLog2_eq_log (q : ℚ) (hq : q ≠ 0) : floorLog2 q = Int.log 2 |q| := by
  have hpos : 0 < |q| := abs_pos.mpr hq
  have hn0 : q.num.natAbs ≠ 0 := by
    rw [Ne, Int.natAbs_eq_zero]
    exact Rat.num_ne_zero.mpr hq
  have hd0 : q.den ≠ 0 := q.den_nz
  have habs : |q| = (q.num.natAbs : ℚ) / (q.den : ℚ) := by
    have h1 : q = (q.num : ℚ) / (q.den : ℚ) := (Rat.num_div_den q).symm
    have hdpos : (0 : ℚ) < (q.den : ℚ) := by exact_mod_cast q.den_pos
    conv_lhs => rw [h1]
    rw [abs_div, abs_of_pos hdpos, Nat.cast_natAbs, Int.cast_abs]
  have hdpos : (0 : ℚ) < (q.den : ℚ) := by exact_mod_cast q.den_pos
  -- bounds on numerator and denominator
  have ha1 : (2 : ℚ) ^ (Nat.log 2 q.num.natAbs) ≤ (q.num.natAbs : ℚ) := by
    exact_mod_cast Nat.pow_log_le_self 2 hn0
  have ha2 : (q.num.natAbs : ℚ) < (2 : ℚ) ^ (Nat.log 2 q.num.natAbs + 1) := by
    exact_mod_cast Nat.lt_pow_succ_log_self (by norm_num) q.num.natAbs
  have hb1 : (2 : ℚ) ^ (Nat.log 2 q.den) ≤ (q.den : ℚ) := by
    exact_mod_cast Nat.pow_log_le_self 2 hd0
  have hb2 : (q.den : ℚ) < (2 : ℚ) ^ (Nat.log 2 q.den + 1) := by
    exact_mod_cast Nat.lt_pow_succ_log_self (by norm_num) q.den
  set a := Nat.log 2 q.num.natAbs with ha
  set b := Nat.log 2 q.den with hb
  have hlow : (2 : ℚ) ^ ((a : ℤ) - (b : ℤ) - 1) < |q| := by
    rw [habs, lt_div_iff₀ hdpos]
    have e : (2 : ℚ) ^ ((a : ℤ) - (b : ℤ) - 1) * (2 : ℚ) ^ (b + 1) = (2 : ℚ) ^ a := by
      rw [← zpow_natCast (2 : ℚ) (b + 1), ← zpow_add₀ (by norm_num), ← zpow_natCast (2 : ℚ) a]
      congr 1
      push_cast
      ring
    calc (2 : ℚ) ^ ((a : ℤ) - (b : ℤ) - 1) * (q.den : ℚ)
        < (2 : ℚ) ^ ((a : ℤ) - (b : ℤ) - 1) * (2 : ℚ) ^ (b + 1) :=
          mul_lt_mul_of_pos_left hb2 (zpow_pos (by norm_num) _)
      _ = (2 : ℚ) ^ a := e
      _ ≤ _ := ha1
  have hhigh : |q| < (2 : ℚ) ^ ((a : ℤ) - (b : ℤ) + 1) := by
    rw [habs, div_lt_iff₀ hdpos]
    have e : (2 : ℚ) ^ ((a : ℤ) - (b : ℤ) + 1) * (2 : ℚ) ^ b = (2 : ℚ) ^ (a + 1) := by
      rw [← zpow_natCast (2 : ℚ) b, ← zpow_add₀ (by norm_num), ← zpow_natCast (2 : ℚ) (a + 1)]
      congr 1
      push_cast
      ring
    calc (q.num.natAbs : ℚ) < (2 : ℚ) ^ (a + 1) := ha2
      _ = (2 : ℚ) ^ ((a : ℤ) - (b : ℤ) + 1) * (2 : ℚ) ^ b := e.symm
      _ ≤ (2 : ℚ) ^ ((a : ℤ) - (b : ℤ) + 1) * (q.den : ℚ) :=
          mul_le_mul_of_nonneg_left hb1 (zpow_pos (by norm_num) _).le
  have key : ∀ k : ℤ, (2 : ℚ) ^ k ≤ |q| → |q| < (2 : ℚ) ^ (k + 1) → k = Int.log 2 |q| := by
    intro k h1 h2
    have l1 : k ≤ Int.log 2 |q| := by
      rw [← Int.zpow_le_iff_le_log (by norm_num) hpos]
      simpa using h1
    have l2 : Int.log 2 |q| < k + 1 := by
      rw [← Int.lt_zpow_iff_log_lt (by norm_num) hpos]
      simpa using h2
    omega
  unfold floorLog2
  rw [log2Fuel_eq _ _ (le_refl _), log2Fuel_eq _ _ (le_refl _)]
  dsimp only
  split_ifs with hc
  · exact key _ hc hhigh
  · refine key _ hlow.le ?_
    rw [sub_add_cancel]
    exact not_le.mp hc

theorem floorLog2_zero : floorLog2 0 = -1 := by decide!

theorem roundEven_cases (q : ℚ) : roundEven q = ⌊q⌋ ∨ (roundEven q = ⌊q⌋ + 1 ∧ 1 / 2 ≤ q - ⌊q⌋) := by
  unfold roundEven
  split_ifs with h1 h2 h3
  · exact Or.inl rfl
  · exact Or.inr ⟨rfl, h2.le⟩
  · exact Or.inl rfl
  · exact Or.inr ⟨rfl, not_lt.mp h1⟩

theorem roundEven_sub_le (q : ℚ) : q - 1 / 2 ≤ (roundEven q : ℚ) := by
  have hfl : q < (⌊q⌋ : ℚ) + 1 := Int.lt_floor_add_one q
  unfold roundEven
  split_ifs with h1 h2 h3
  · linarith
  · push_cast; linarith
  · have : q - ⌊q⌋ = 1 / 2 := le_antisymm (not_lt.mp h2) (not_lt.mp h1)
    linarith
  · push_cast; linarith

theorem roundEven_le_add (q : ℚ) : (roundEven q : ℚ) ≤ q + 1 / 2 := by
  have hfl : (⌊q⌋ : ℚ) ≤ q := Int.floor_le q
  rcases roundEven_cases q with h | ⟨h, hh⟩
  · rw [h]; linarith
  · rw [h]; push_cast; linarith

theorem le_roundEven (q : ℚ) (n : ℤ) (h : (n : ℚ) ≤ q) : n ≤ roundEven q := by
  have hfl : n ≤ ⌊q⌋ := Int.le_floor.mpr h
  rcases roundEven_cases q with h | ⟨h, _⟩ <;> rw [h] <;> omega

theorem roundEven_le (q : ℚ) (n : ℤ) (h : q ≤ (n : ℚ)) : roundEven q ≤ n := by
  rcases roundEven_cases q with he | ⟨he, hh⟩
  · rw [he]
    exact Int.cast_le.mp (le_trans (Int.floor_le q) h)
  · rw [he]
    have hlt : (⌊q⌋ : ℚ) < n := by linarith
    have : ⌊q⌋ < n := Int.cast_lt.mp hlt
    omega

theorem two_zpow_pos (u : ℤ) : (0 : ℚ) < 2 ^ u := zpow_pos (by norm_num) u

theorem roundFloat_sub_le (p : Nat) (emin : ℤ) (q : ℚ) :
    q - 2 ^ ulpExp p emin q / 2 ≤ roundFloat p emin q := by
  have hu := two_zpow_pos (ulpExp p emin q)
  have h := roundEven_sub_le (q / 2 ^ ulpExp p emin q)
  have h2 := mul_le_mul_of_nonneg_right h hu.le
  unfold roundFloat
  calc q - 2 ^ ulpExp p emin q / 2
      = (q / 2 ^ ulpExp p emin q - 1 / 2) * 2 ^ ulpExp p emin q := by
        field_simp
        ring
    _ ≤ _ := h2

theorem roundFloat_le_add (p : Nat) (emin : ℤ) (q : ℚ) :
    roundFloat p emin q ≤ q + 2 ^ ulpExp p emin q / 2 := by
  have hu := two_zpow_pos (ulpExp p emin q)
  have h := roundEven_le_add (q / 2 ^ ulpExp p emin q)
  have h2 := mul_le_mul_of_nonneg_right h hu.le
  unfold roundFloat
  calc _ ≤ (q / 2 ^ ulpExp p emin q + 1 / 2) * 2 ^ ulpExp p emin q := h2
    _ = q + 2 ^ ulpExp p emin q / 2 := by
        field_simp
        ring

theorem roundFloat_nonneg (p : Nat) (emin : ℤ) (q : ℚ) (h : 0 ≤ q) : 0 ≤ roundFloat p emin q := by
  have hu := two_zpow_pos (ulpExp p emin q)
  have h0 : ((0 : ℤ) : ℚ) ≤ q / 2 ^ ulpExp p emin q := by
    rw [Int.cast_zero]; exact div_nonneg h hu.le
  have h1 := le_roundEven _ 0 h0
  unfold roundFloat
  exact mul_nonneg (by exact_mod_cast h1) hu.le

theorem roundFloat_nonpos (p : Nat) (emin : ℤ) (q : ℚ) (h : q ≤ 0) : roundFloat p emin q ≤ 0 := by
  have hu := two_zpow_pos (ulpExp p emin q)
  have h0 : q / 2 ^ ulpExp p emin q ≤ ((0 : ℤ) : ℚ) := by
    rw [Int.cast_zero]; exact div_nonpos_of_nonpos_of_nonneg h hu.le
  have h1 := roundEven_le _ 0 h0
  unfold roundFloat
  exact mul_nonpos_of_nonpos_of_nonneg (by exact_mod_cast h1) hu.le

/-- For `|q| ≤ 1` the binary32 unit in the last place is at most `2^-23`. -/
theorem ulpExp32_le (q : ℚ) (h : |q| ≤ 1) : ulpExp 24 (-126) q ≤ -23 := by
  have hlog : floorLog2 q ≤ 0 := by
    by_cases hq : q = 0
    · rw [hq, floorLog2_zero]; norm_num
    · rw [floorLog2_eq_log q hq, Int.log_of_right_le_one 2 h]
      omega
  unfold ulpExp
  have : max (floorLog2 q) (-126) ≤ 0 := max_le hlog (by norm_num)
  push_cast
  omega

/-- For `1 ≤ |q| < 2` the binary32 unit in the last place is `2^-23`. -/
theorem ulpExp32_unit (q : ℚ) (h1 : 1 ≤ |q|) (h2 : |q| < 2) : ulpExp 24 (-126) q = -23 := by
  have hpos : 0 < |q| := lt_of_lt_of_le one_pos h1
  have hge : (0 : ℤ) ≤ Int.log 2 |q| := by
    rw [← Int.zpow_le_iff_le_log (by norm_num) hpos]
    simpa using h1
  have hlt : Int.log 2 |q| < 1 := by
    rw [← Int.lt_zpow_iff_log_lt (by norm_num) hpos]
    simpa using h2
  have : Int.log 2 |q| = 0 := by omega
  unfold ulpExp
  rw [floorLog2_eq_log q (abs_pos.mp hpos), this]
  norm_num

/-- For `2 ≤ |q|` the binary32 unit in the last place is at most `|q| * 2^-23`. -/
theorem ulpExp32_large (q : ℚ) (h : 2 ≤ |q|) :
    (2 : ℚ) ^ ulpExp 24 (-126) q ≤ |q| * 2 ^ (-23 : ℤ) := by
  have hpos : 0 < |q| := lt_of_lt_of_le (by norm_num) h
  have hge : (1 : ℤ) ≤ Int.log 2 |q| := by
    rw [← Int.zpow_le_iff_le_log (by norm_num) hpos]
    simpa using h
  have hself : ((2 : ℕ) : ℚ) ^ Int.log 2 |q| ≤ |q| := Int.zpow_log_le_self (by norm_num) hpos
  have hu : ulpExp 24 (-126) q = Int.log 2 |q| + (-23) := by
    unfold ulpExp
    rw [floorLog2_eq_log q (abs_pos.mp hpos), max_eq_left (by omega)]
    push_cast
    ring
  rw [hu, zpow_add₀ (by norm_num)]
  exact mul_le_mul_of_nonneg_right (by simpa using hself) (two_zpow_pos _).le

theorem rnd32_nonneg (q : ℚ) (h : 0 ≤ q) : 0 ≤ rnd32 q := roundFloat_nonneg 24 (-126) q h

theorem rnd32_nonpos (q : ℚ) (h : q ≤ 0) : rnd32 q ≤ 0 := roundFloat_nonpos 24 (-126) q h

/-- Rounding to binary32 does not move a value of magnitude at most `1` by
more than `2^-24`. -/
theorem rnd32_error_unit (q : ℚ) (h : |q| ≤ 1) :
    q - 2 ^ (-24 : ℤ) ≤ rnd32 q ∧ rnd32 q ≤ q + 2 ^ (-24 : ℤ) := by
  have hu : (2 : ℚ) ^ ulpExp 24 (-126) q ≤ 2 ^ (-23 : ℤ) :=
    zpow_le_zpow_right₀ (by norm_num) (ulpExp32_le q h)
  have h1 := roundFloat_sub_le 24 (-126) q
  have h2 := roundFloat_le_add 24 (-126) q
  have e23 : (2 : ℚ) ^ (-23 : ℤ) = 1 / 8388608 := by norm_num
  have e24 : (2 : ℚ) ^ (-24 : ℤ) = 1 / 16777216 := by norm_num
  rw [e23] at hu
  rw [e24]
  unfold rnd32
  constructor <;> linarith

/-- A value above `1 + 2^-24` rounds to a binary32 value above `1`. -/
theorem rnd32_gt_one (q : ℚ) (h : 1 + 2 ^ (-24 : ℤ) < q) : 1 < rnd32 q := by
  have hq : (1 : ℚ) < q := lt_trans (by norm_num) h
  have habs : |q| = q := abs_of_pos (lt_trans one_pos hq)
  have h1 := roundFloat_sub_le 24 (-126) q
  have e24 : (2 : ℚ) ^ (-24 : ℤ) = 1 / 16777216 := by norm_num
  rw [e24] at h
  unfold rnd32
  by_cases h2 : q < 2
  · have hu := ulpExp32_unit q (by rw [habs]; exact hq.le) (by rw [habs]; exact h2)
    have e : (2 : ℚ) ^ (-23 : ℤ) = 1 / 8388608 := by norm_num
    rw [hu, e] at h1
    linarith
  · have hu := ulpExp32_large q (by rw [habs]; exact not_lt.mp h2)
    rw [habs] at hu
    have h2' : (2 : ℚ) ≤ q := not_lt.mp h2
    have e : (2 : ℚ) ^ (-23 : ℤ) = 1 / 8388608 := by norm_num
    rw [e] at hu
    linarith

/-- A value below `-1 - 2^-24` rounds to a binary32 value below `-1`. -/
theorem rnd32_lt_neg_one (q : ℚ) (h : q < -1 - 2 ^ (-24 : ℤ)) : rnd32 q < -1 := by
  have hq : q < -1 := lt_trans h (by norm_num)
  have habs : |q| = -q := abs_of_neg (lt_trans hq (by norm_num))
  have h1 := roundFloat_le_add 24 (-126) q
  have e24 : (2 : ℚ) ^ (-24 : ℤ) = 1 / 16777216 := by norm_num
  rw [e24] at h
  unfold rnd32
  by_cases h2 : -2 < q
  · have hu := ulpExp32_unit q (by rw [habs]; linarith) (by rw [habs]; linarith)
    have e : (2 : ℚ) ^ (-23 : ℤ) = 1 / 8388608 := by norm_num
    rw [hu, e] at h1
    linarith
  · have hu := ulpExp32_large q (by rw [habs]; linarith)
    rw [habs] at hu
    have h2' : q ≤ -2 := not_lt.mp h2
    have e : (2 : ℚ) ^ (-23 : ℤ) = 1 / 8388608 := by norm_num
    rw [e] at hu
    linarith

/-- A value at most `1` rounds to a binary32 value at most `1`. -/
theorem rnd32_le_one (q : ℚ) (h : q ≤ 1) : rnd32 q ≤ 1 := by
  by_cases h0 : q ≤ 0
  · exact le_trans (rnd32_nonpos q h0) (by norm_num)
  · have hpos : 0 < q := not_le.mp h0
    have habs : |q| ≤ 1 := by rw [abs_of_pos hpos]; exact h
    have hu := ulpExp32_le q habs
    obtain ⟨k, hk⟩ : ∃ k : ℕ, ulpExp 24 (-126) q = -(k : ℤ) :=
      ⟨(-ulpExp 24 (-126) q).toNat, by omega⟩
    have hpow : (2 : ℚ) ^ ulpExp 24 (-126) q = ((2 : ℚ) ^ k)⁻¹ := by
      rw [hk, zpow_neg, zpow_natCast]
    have hkpos : (0 : ℚ) < 2 ^ k := by positivity
    have hle : q / 2 ^ ulpExp 24 (-126) q ≤ (((2 : ℤ) ^ k : ℤ) : ℚ) := by
      rw [hpow, div_inv_eq_mul]
      push_cast
      calc q * 2 ^ k ≤ 1 * 2 ^ k := mul_le_mul_of_nonneg_right h hkpos.le
        _ = 2 ^ k := one_mul _
    have hr := roundEven_le _ _ hle
    have hr' : (roundEven (q / 2 ^ ulpExp 24 (-126) q) : ℚ) ≤ 2 ^ k := by exact_mod_cast hr
    unfold rnd32 roundFloat
    rw [hpow] at hr' ⊢
    calc (roundEven (q / ((2 : ℚ) ^ k)⁻¹) : ℚ) * ((2 : ℚ) ^ k)⁻¹
        ≤ 2 ^ k * ((2 : ℚ) ^ k)⁻¹ := mul_le_mul_of_nonneg_right hr' (inv_pos.mpr hkpos).le
      _ = 1 := mul_inv_cancel₀ hkpos.ne'

/-! ## Rounding: monotonicity -/

theorem roundEven_mono (s t : ℚ) (h : s ≤ t) : roundEven s ≤ roundEven t := by
  have hfl : ⌊s⌋ ≤ ⌊t⌋ := Int.floor_mono h
  rcases lt_or_eq_of_le hfl with hlt | heq
  · have h1 : roundEven s ≤ ⌊s⌋ + 1 := by
      rcases roundEven_cases s with e | ⟨e, _⟩ <;> omega
    have h2 : ⌊t⌋ ≤ roundEven t := le_roundEven t ⌊t⌋ (Int.floor_le t)
    omega
  · unfold roundEven
    rw [heq]
    have hq : s - (⌊t⌋ : ℚ) ≤ t - (⌊t⌋ : ℚ) := by linarith
    split_ifs <;> first | omega | (exfalso; linarith)

theorem roundEven_neg (t : ℚ) : roundEven (-t) = -roundEven t := by
  by_cases hint : (⌊t⌋ : ℚ) = t
  · have h1 : ⌊-t⌋ = -⌊t⌋ := by
      rw [← hint, ← Int.cast_neg, Int.floor_intCast, Int.floor_intCast]
    unfold roundEven
    rw [h1]
    have e1 : -t - ((-⌊t⌋ : ℤ) : ℚ) = 0 := by push_cast; linarith
    have e2 : t - (⌊t⌋ : ℚ) = 0 := by linarith
    rw [e1, e2]
    norm_num
  · have hlt : (⌊t⌋ : ℚ) < t := lt_of_le_of_ne (Int.floor_le t) hint
    have hlt2 : t < (⌊t⌋ : ℚ) + 1 := Int.lt_floor_add_one t
    have h1 : ⌊-t⌋ = -⌊t⌋ - 1 := by
      rw [Int.floor_eq_iff]
      push_cast
      constructor <;> linarith
    unfold roundEven
    rw [h1]
    have e1 : -t - ((-⌊t⌋ - 1 : ℤ) : ℚ) = 1 - (t - (⌊t⌋ : ℚ)) := by push_cast; ring
    rw [e1]
    split_ifs <;> first | omega | (exfalso; linarith)

theorem floorLog2_neg (q : ℚ) : floorLog2 (-q) = floorLog2 q := by
  unfold floorLog2
  simp only [Rat.neg_num, Rat.neg_den, Int.natAbs_neg, abs_neg]

theorem roundFloat_neg (p : Nat) (emin : ℤ) (q : ℚ) :
    roundFloat p emin (-q) = -roundFloat p emin q := by
  have hu : ulpExp p emin (-q) = ulpExp p emin q := by
    unfold ulpExp
    rw [floorLog2_neg]
  unfold roundFloat
  rw [hu, neg_div, roundEven_neg]
  push_cast
  ring

theorem two_zpow_le (a b : ℤ) (h : a ≤ b) : (2 : ℚ) ^ a ≤ 2 ^ b :=
  zpow_le_zpow_right₀ (by norm_num) h

/-- For `0 < q` the exponent brackets `q`. -/
theorem floorLog2_spec (q : ℚ) (hq : 0 < q) :
    (2 : ℚ) ^ floorLog2 q ≤ q ∧ q < (2 : ℚ) ^ (floorLog2 q + 1) := by
  have habs : |q| = q := abs_of_pos hq
  rw [floorLog2_eq_log q hq.ne', habs]
  have h1 : ((2 : ℕ) : ℚ) ^ Int.log 2 q ≤ q := Int.zpow_log_le_self (by norm_num) hq
  have h2 : q < ((2 : ℕ) : ℚ) ^ (Int.log 2 q + 1) := Int.lt_zpow_succ_log_self (by norm_num) q
  exact ⟨by simpa using h1, by simpa using h2⟩

theorem floorLog2_mono (x y : ℚ) (hx : 0 < x) (h : x ≤ y) : floorLog2 x ≤ floorLog2 y := by
  have hy : 0 < y := lt_of_lt_of_le hx h
  rw [floorLog2_eq_log x hx.ne', floorLog2_eq_log y hy.ne', abs_of_pos hx, abs_of_pos hy]
  exact Int.log_mono_right hx h

theorem roundFloat_mono_pos (p : Nat) (emin : ℤ) (hp : 1 ≤ p) (x y : ℚ) (hx : 0 < x)
    (h : x ≤ y) : roundFloat p emin x ≤ roundFloat p emin y := by
  have hy : 0 < y := lt_of_lt_of_le hx h
  have hL := floorLog2_mono x y hx h
  have hule : ulpExp p emin x ≤ ulpExp p emin y := by
    unfold ulpExp
    have : max (floorLog2 x) emin ≤ max (floorLog2 y) emin := max_le_max hL (le_refl _)
    omega
  rcases eq_or_lt_of_le hule with heq | hlt
  · -- same unit in the last place
    unfold roundFloat
    rw [heq]
    have hpos := two_zpow_pos (ulpExp p emin y)
    have hdiv : x / 2 ^ ulpExp p emin y ≤ y / 2 ^ ulpExp p emin y :=
      div_le_div_of_nonneg_right h hpos.le
    have hr := roundEven_mono _ _ hdiv
    exact mul_le_mul_of_nonneg_right (by exact_mod_cast hr) hpos.le
  · -- `y` lies in a higher binade
    have hux : ulpExp p emin x = max (floorLog2 x) emin - ((p : ℤ) - 1) := rfl
    have huy : ulpExp p emin y = max (floorLog2 y) emin - ((p : ℤ) - 1) := rfl
    have hmax : max (floorLog2 x) emin < max (floorLog2 y) emin := by omega
    have hey : max (floorLog2 y) emin = floorLog2 y := by
      apply max_eq_left
      by_contra hc
      have : max (floorLog2 y) emin = emin := max_eq_right (by omega)
      have : emin ≤ max (floorLog2 x) emin := le_max_right _ _
      omega
    have hLx : floorLog2 x ≤ max (floorLog2 x) emin := le_max_left _ _
    obtain ⟨_, hx2⟩ := floorLog2_spec x hx
    obtain ⟨hy1, _⟩ := floorLog2_spec y hy
    have hposx := two_zpow_pos (ulpExp p emin x)
    have hposy := two_zpow_pos (ulpExp p emin y)
    -- the rounded `x` does not exceed the top of its binade
    have hxtop : x ≤ (2 : ℚ) ^ (max (floorLog2 x) emin + 1) :=
      le_trans hx2.le (two_zpow_le _ _ (by omega))
    have hRx : roundFloat p emin x ≤ (2 : ℚ) ^ (max (floorLog2 x) emin + 1) := by
      have e : (2 : ℚ) ^ (max (floorLog2 x) emin + 1)
          = (((2 : ℤ) ^ p : ℤ) : ℚ) * 2 ^ ulpExp p emin x := by
        push_cast
        rw [← zpow_natCast (2 : ℚ) p, ← zpow_add₀ (by norm_num)]
        congr 1
        rw [hux]
        ring
      have ht : x / 2 ^ ulpExp p emin x ≤ (((2 : ℤ) ^ p : ℤ) : ℚ) := by
        rw [div_le_iff₀ hposx, ← e]
        exact hxtop
      have hr := roundEven_le _ _ ht
      rw [e]
      unfold roundFloat
      exact mul_le_mul_of_nonneg_right (by exact_mod_cast hr) hposx.le
    -- the rounded `y` is at least the bottom of its binade
    have hRy : (2 : ℚ) ^ floorLog2 y ≤ roundFloat p emin y := by
      obtain ⟨k, hk⟩ : ∃ k : ℕ, p = k + 1 := ⟨p - 1, by omega⟩
      have e : (2 : ℚ) ^ floorLog2 y = (((2 : ℤ) ^ k : ℤ) : ℚ) * 2 ^ ulpExp p emin y := by
        push_cast
        rw [← zpow_natCast (2 : ℚ) k, ← zpow_add₀ (by norm_num)]
        congr 1
        rw [huy, hey, hk]
        push_cast
        ring
      have ht : (((2 : ℤ) ^ k : ℤ) : ℚ) ≤ y / 2 ^ ulpExp p emin y := by
        rw [le_div_iff₀ hposy, ← e]
        exact hy1
      have hr := le_roundEven _ _ ht
      rw [e]
      unfold roundFloat
      exact mul_le_mul_of_nonneg_right (by exact_mod_cast hr) hposy.le
    calc roundFloat p emin x ≤ (2 : ℚ) ^ (max (floorLog2 x) emin + 1) := hRx
      _ ≤ (2 : ℚ) ^ floorLog2 y := two_zpow_le _ _ (by omega)
      _ ≤ roundFloat p emin y := hRy

/-- Rounding to a binary floating-point format is monotone. -/
theorem roundFloat_mono (p : Nat) (emin : ℤ) (hp : 1 ≤ p) (x y : ℚ) (h : x ≤ y) :
    roundFloat p emin x ≤ roundFloat p emin y := by
  rcases lt_trichotomy 0 x with hx | hx | hx
  · exact roundFloat_mono_pos p emin hp x y hx h
  · rw [← hx] at h ⊢
    exact le_trans (roundFloat_nonpos p emin 0 (le_refl _)) (roundFloat_nonneg p emin y h)
  · rcases le_or_lt 0 y with hy | hy
    · exact le_trans (roundFloat_nonpos p emin x hx.le) (roundFloat_nonneg p emin y hy)
    · have h' := roundFloat_mono_pos p emin hp (-y) (-x) (by linarith) (by linarith)
      rw [roundFloat_neg, roundFloat_neg] at h'
      linarith

/-- Rounding to binary32 is monotone. -/
theorem rnd32_mono (x y : ℚ) (h : x ≤ y) : rnd32 x ≤ rnd32 y :=
  roundFloat_mono 24 (-126) (by norm_num) x y h

/-- A binary32 value `b` below `q` stays below the rounded `q`. -/
theorem le_rnd32 (b q : ℚ) (hb : IsF32 b) (h : b ≤ q) : b ≤ rnd32 q := by
  have := rnd32_mono b q h
  rw [hb] at this
  exact this

/-! ## Binary32 model: basic facts -/

/-- C1. Range invariant: from any state whose oxygen level, food level and
fish happiness values all lie in `[0, 1]`, and for any elapsed time `dt ≥ 0`
however large, the state after one frame step and the state after any mouse
event (any button, action and cursor position) again have both levels and
every fish's happiness in `[0, 1]`. -/
theorem C1_range_invariant (w : World) (r : RandStream) (dt : ℚ) (button action : Int)
    (mx my : ℚ) (hw : InRange w) (hdt : 0 ≤ dt) :
    InRange (frameStep w r dt).1 ∧ InRange (mouseButtonCallback w button action mx my) :=
  ⟨frameStep_inRange w r dt hw hdt, mouseButtonCallback_inRange w button action mx my hw⟩

/-- Witness for C1: the sample state, a frame of one million seconds and a
click on the feed button. -/
theorem C1_range_invariant_witness :
    InRange sampleWorld ∧ (0 : ℚ) ≤ 1000000 ∧
      InRange (frameStep sampleWorld (constRand 7) 1000000).1 ∧
      InRange (mouseButtonCallback sampleWorld GLFW_MOUSE_BUTTON_LEFT GLFW_PRESS 600 540) :=
  ⟨sampleWorld_inRange, by norm_num,
    C1_range_invariant sampleWorld (constRand 7) 1000000 GLFW_MOUSE_BUTTON_LEFT GLFW_PRESS
      600 540 sampleWorld_inRange (by norm_num)⟩

/-! ## C2: feed boost -/

theorem sunkRun_reachable (later : Nat) (s : World × RandStream) (h : sunkRun later = some s) :
    Reachable 8 s := by
  unfold sunkRun at h
  obtain ⟨p, hp, rfl⟩ := Option.map_eq_some'.mp h
  have h0 : Reachable 8 (⟨p.1, 1, 1, false⟩, p.2) :=
    Reachable.start 1 _ p.2 p.1 1 1 hp (by norm_num) (by norm_num) (by norm_num) (by norm_num)
  have h1 := Reachable.frame _ 30 h0 (by norm_num)
  have h2 := Reachable.click _ GLFW_MOUSE_BUTTON_LEFT GLFW_PRESS 600 540 h1
  exact Reachable.click _ GLFW_MOUSE_BUTTON_LEFT GLFW_PRESS 100 540 h2

set_option maxRecDepth 100000 in
theorem sunkRun_revive_zero :
    (sunkRun 100).map (fun s => (s.1.areFishesDying, (frameStep s.1 s.2 (1 / 60)).1.areFishesDying,
        (frameStep s.1 s.2 (1 / 60)).1.fishes.map (fun f => (f.isDying, f.dx, f.dy))))
      = some (true, false, List.replicate 8 (false, 0, 0)) := by
  decide!

/-- C4 (the code departs from the claim). In the run `sunkRun 100` of `main`
the tank is in dying mode with food `0.8` and oxygen `1`, and every later call
of `rand()` returns `100`.  The next frame (`dt = 1/60`) leaves dying mode and
clears `isDying` on all eight fish, but gives every fish the velocity
`(dx, dy) = (0, 0)`: the leave-dying branch draws once, without the rejection
loop of `initFishes`.  So a reachable state exists whose leave-dying frame
yields fish with zero velocity. -/
theorem C4_revive_zero_velocity :
    (sunkRun 100).map (fun s => (s.1.areFishesDying, (frameStep s.1 s.2 (1 / 60)).1.areFishesDying,
        (frameStep s.1 s.2 (1 / 60)).1.fishes.map (fun f => (f.isDying, f.dx, f.dy))))
      = some (true, false, List.replicate 8 (false, 0, 0)) ∧
    ∃ s : World × RandStream, Reachable 8 s ∧ s.1.areFishesDying = true ∧
      (frameStep s.1 s.2 (1 / 60)).1.areFishesDying = false ∧
      (frameStep s.1 s.2 (1 / 60)).1.fishes ≠ [] ∧
      ∀ f ∈ (frameStep s.1 s.2 (1 / 60)).1.fishes, f.isDying = false ∧ (f.dx, f.dy) = (0, 0) := by
  refine ⟨sunkRun_revive_zero, ?_⟩
  obtain ⟨s, hs, hv⟩ := Option.map_eq_some'.mp sunkRun_revive_zero
  simp only [Prod.mk.injEq] at hv
  obtain ⟨h1, h2, h3⟩ := hv
  refine ⟨s, sunkRun_reachable 100 s hs, h1, h2, ?_, ?_⟩
  · intro hnil
    rw [hnil] at h3
    exact absurd h3 (by decide)
  · intro f hf
    have hm : (f.isDying, f.dx, f.dy) ∈ List.replicate 8 ((false, 0, 0) : Bool × ℚ × ℚ) := by
      rw [← h3]
      exact List.mem_map_of_mem (fun f => (f.isDying, f.dx, f.dy)) hf
    have he := (List.mem_replicate.mp hm).2
    simp only [Prod.mk.injEq] at he
    exact ⟨he.1, by rw [he.2.1, he.2.2]⟩

/-! ## C5: horizontal wall reflection -/

theorem b32_updateFish_swim_x (f : Fish) (dt : ℚ) (hs : f.isDying = false) :
    (Binary32.updateFish f dt).x =
      if Binary32.sub (Binary32.add f.x (Binary32.mul f.dx dt)) (Binary32.div f.size 2) < -1 then
        Binary32.add (-1) (Binary32.div f.size 2)
      else if Binary32.add (Binary32.add f.x (Binary32.mul f.dx dt)) (Binary32.div f.size 2) > 1
      then Binary32.sub 1 (Binary32.div f.size 2)
      else Binary32.add f.x (Binary32.mul f.dx dt) := by
  unfold Binary32.updateFish
  simp only [hs, Bool.false_eq_true, if_false]
  split_ifs <;> rfl

theorem b32_updateFish_swim_dx (f : Fish) (dt : ℚ) (hs : f.isDying = false) :
    (Binary32.updateFish f dt).dx =
      if Binary32.sub (Binary32.add f.x (Binary32.mul f.dx dt)) (Binary32.div f.size 2) < -1 then
        -f.dx
      else if Binary32.add (Binary32.add f.x (Binary32.mul f.dx dt)) (Binary32.div f.size 2) > 1
      then -f.dx
      else f.dx := by
  unfold Binary32.updateFish
  simp only [hs, Bool.false_eq_true, if_false]
  split_ifs <;> rfl

theorem b32_updateFish_swim_facing (f : Fish) (dt : ℚ) (hs : f.isDying = false) :
    (Binary32.updateFish f dt).facingRight =
      if Binary32.sub (Binary32.add f.x (Binary32.mul f.dx dt)) (Binary32.div f.size 2) < -1 then
        true
      else if Binary32.add (Binary32.add f.x (Binary32.mul f.dx dt)) (Binary32.div f.size 2) > 1
      then false
      else f.facingRight := by
  unfold Binary32.updateFish
  simp only [hs, Bool.false_eq_true, if_false]
  split_ifs <;> rfl

theorem b32_aspect :
    Binary32.div (rnd32 (WINDOW_HEIGHT : ℚ)) (rnd32 (WINDOW_WIDTH : ℚ)) = 3 / 4 := by
  decide!

theorem b32_updateFish_swim_y (f : Fish) (dt : ℚ) (hs : f.isDying = false) :
    (Binary32.updateFish f dt).y =
      if Binary32.sub (Binary32.add f.y (Binary32.mul f.dy dt))
          (Binary32.mul (Binary32.div f.size 2) (3 / 4)) < -1 then
        Binary32.add (-1) (Binary32.mul (Binary32.div f.size 2) (3 / 4))
      else if Binary32.add (Binary32.add f.y (Binary32.mul f.dy dt))
          (Binary32.mul (Binary32.div f.size 2) (3 / 4)) > 1
      then Binary32.sub 1 (Binary32.mul (Binary32.div f.size 2) (3 / 4))
      else Binary32.add f.y (Binary32.mul f.dy dt) := by
  unfold Binary32.updateFish
  simp only [hs, Bool.false_eq_true, if_false, b32_aspect]
  split_ifs <;> rfl

/-- C5 (as amended). Horizontal wall reflection in `updateFish`, in binary32
arithmetic.  For a swimming fish (`isDying` false) and any `dt`, let
`x1 = x + dx*dt` and `hx = size/2`, each operation rounded to `float`.  If the
`float` difference `x1 - hx` is below `-1`, the result has `x = -1 + hx`
(rounded), `dx` negated and `facingRight = true`; otherwise, if the `float` sum
`x1 + hx` is above `1`, the result has `x = 1 - hx` (rounded), `dx` negated
and `facingRight = false`; otherwise `x = x1` with `dx` and `facingRight`
unchanged. -/
theorem C5_horizontal_reflection_binary32 (f : Fish) (dt : ℚ) (hs : f.isDying = false) :
    (Binary32.sub (Binary32.add f.x (Binary32.mul f.dx dt)) (Binary32.div f.size 2) < -1 →
        (Binary32.updateFish f dt).x = Binary32.add (-1) (Binary32.div f.size 2) ∧
          (Binary32.updateFish f dt).dx = -f.dx ∧
          (Binary32.updateFish f dt).facingRight = true) ∧
      (Binary32.add (Binary32.add f.x (Binary32.mul f.dx dt)) (Binary32.div f.size 2) > 1 →
        Binary32.sub (Binary32.add f.x (Binary32.mul f.dx dt)) (Binary32.div f.size 2) ≥ -1 →
        (Binary32.updateFish f dt).x = Binary32.sub 1 (Binary32.div f.size 2) ∧
          (Binary32.updateFish f dt).dx = -f.dx ∧
          (Binary32.updateFish f dt).facingRight = false) ∧
      (Binary32.sub (Binary32.add f.x (Binary32.mul f.dx dt)) (Binary32.div f.size 2) ≥ -1 →
        Binary32.add (Binary32.add f.x (Binary32.mul f.dx dt)) (Binary32.div f.size 2) ≤ 1 →
        (Binary32.updateFish f dt).x = Binary32.add f.x (Binary32.mul f.dx dt) ∧
          (Binary32.updateFish f dt).dx = f.dx ∧
          (Binary32.updateFish f dt).facingRight = f.facingRight) := by
  rw [b32_updateFish_swim_x f dt hs, b32_updateFish_swim_dx f dt hs,
    b32_updateFish_swim_facing f dt hs]
  refine ⟨?_, ?_, ?_⟩
  · intro h
    simp only [if_pos h, and_self]
  · intro h1 h2
    simp only [if_neg (not_lt.mpr h2), if_pos h1, and_self]
  · intro h1 h2
    simp only [if_neg (not_lt.mpr h1), if_neg (not_lt.mpr h2), and_self]

set_option maxRecDepth 100000 in
theorem cornerFish_eval :
    Binary32.add (Binary32.add cornerFish.x (Binary32.mul cornerFish.dx (rnd32 0.2)))
        (Binary32.div cornerFish.size 2) > 1 ∧
      Binary32.sub (Binary32.add cornerFish.x (Binary32.mul cornerFish.dx (rnd32 0.2)))
        (Binary32.div cornerFish.size 2) ≥ -1 ∧
      Binary32.sub 1 (Binary32.div cornerFish.size 2) = rnd32 0.9 := by
  decide!

/-- Witness for C5: the fish at `x = 0.95f` with `dx = 0.5`, `size = 0.2f`,
after `dt = 0.2f`, has `float` sum `x1 + hx` above `1`, so it ends at
`x = 0.9f` with `dx = -0.5` and `facingRight = false`. -/
theorem C5_horizontal_reflection_binary32_witness :
    cornerFish.isDying = false ∧
      Binary32.add (Binary32.add cornerFish.x (Binary32.mul cornerFish.dx (rnd32 0.2)))
        (Binary32.div cornerFish.size 2) > 1 ∧
      (Binary32.updateFish cornerFish (rnd32 0.2)).x = rnd32 0.9 ∧
      (Binary32.updateFish cornerFish (rnd32 0.2)).dx = -0.5 ∧
      (Binary32.updateFish cornerFish (rnd32 0.2)).facingRight = false := by
  have h := (C5_horizontal_reflection_binary32 cornerFish (rnd32 0.2) rfl).2.1
    cornerFish_eval.1 cornerFish_eval.2.1
  refine ⟨rfl, cornerFish_eval.1, ?_, ?_, h.2.2⟩
  · rw [h.1]; exact cornerFish_eval.2.2
  · rw [h.2.1]; norm_num [cornerFish]

set_option maxRecDepth 100000 in
theorem boundaryFish_eval :
    (IsF32 (nearWallFish 0.5).x ∧ IsF32 (nearWallFish 0.5).dx ∧ IsF32 (nearWallFish 0.5).size ∧
        IsF32 0) ∧
      (1 < (nearWallFish 0.5).x + (nearWallFish 0.5).dx * 0 + (nearWallFish 0.5).size / 2 ∧
        -1 ≤ (nearWallFish 0.5).x + (nearWallFish 0.5).dx * 0 - (nearWallFish 0.5).size / 2) ∧
      (Binary32.updateFish (nearWallFish 0.5) 0).dx = 0.5 ∧
      (Binary32.updateFish (nearWallFish 0.5) 0).facingRight = true := by
  decide!

set_option maxRecDepth 100000 in
theorem leftWallFish_eval :
    (IsF32 leftWallFish.x ∧ IsF32 leftWallFish.dx ∧ IsF32 leftWallFish.size ∧
        IsF32 (2 ^ (-26 : ℤ))) ∧
      leftWallFish.x + leftWallFish.dx * 2 ^ (-26 : ℤ) - leftWallFish.size / 2 < -1 ∧
      (Binary32.updateFish leftWallFish (2 ^ (-26 : ℤ))).dx = -0.5 ∧
      (Binary32.updateFish leftWallFish (2 ^ (-26 : ℤ))).facingRight = false := by
  decide!

/-- Counterexample for C5 as stated (tests on the exact sums), at binary32
inputs.  Left wall: the swimming fish `x = -0.875`, `dx = -0.5`, `size = 0.25`
with `dt = 2^-26` has exact `x + dx*dt - size/2 < -1`, but in `float` the sum
`x + dx*dt` rounds to `-0.875` and `x1 - 0.125` is exactly `-1`: no bounce
happens, `dx` stays `-0.5` and `facingRight` stays false.  Right wall: the
swimming fish `x = 0.875 + 2^-24`, `dx = 0.5`, `size = 0.25` with `dt = 0` has
exact `x + dx*dt + size/2 = 1 + 2^-24 > 1`, but the `float` sum `x1 + 0.125`
rounds to exactly `1`: no bounce happens, `dx` stays `0.5` and `facingRight`
stays true. -/
theorem C5_exact_sums_refuted :
    (¬ ∀ (f : Fish) (dt : ℚ), IsF32 f.x → IsF32 f.dx → IsF32 f.size → IsF32 dt →
        f.isDying = false → f.x + f.dx * dt - f.size / 2 < -1 →
        (Binary32.updateFish f dt).dx = -f.dx ∧
          (Binary32.updateFish f dt).facingRight = true) ∧
      ¬ ∀ (f : Fish) (dt : ℚ), IsF32 f.x → IsF32 f.dx → IsF32 f.size → IsF32 dt →
        f.isDying = false → f.x + f.dx * dt + f.size / 2 > 1 →
        f.x + f.dx * dt - f.size / 2 ≥ -1 →
        (Binary32.updateFish f dt).dx = -f.dx ∧
          (Binary32.updateFish f dt).facingRight = false := by
  constructor
  · intro hall
    obtain ⟨⟨h1, h2, h3, h4⟩, h5, _, h7⟩ := leftWallFish_eval
    have h := hall leftWallFish (2 ^ (-26 : ℤ)) h1 h2 h3 h4 rfl h5
    rw [h7] at h
    exact absurd h.2 (by decide)
  · intro hall
    obtain ⟨⟨h1, h2, h3, h4⟩, ⟨h5, h6⟩, _, h7⟩ := boundaryFish_eval
    have h := hall (nearWallFish 0.5) 0 h1 h2 h3 h4 rfl h5 h6
    rw [h7] at h
    exact absurd h.2 (by decide)

/-! ## C6: sinking -/

theorem b32_checkButtonClick_iff (btn : Button) (a b : ℚ) :
    Binary32.checkButtonClick btn a b = true ↔
      (btn.x ≤ a ∧ a ≤ Binary32.add btn.x btn.width) ∧
        (btn.y ≤ b ∧ b ≤ Binary32.add btn.y btn.height) := by
  unfold Binary32.checkButtonClick
  simp only [Bool.and_eq_true, decide_eq_true_eq, ge_iff_le, and_assoc]

/-- C7 (as amended). `checkButtonClick btn mx my` is true if and only if
`btn.x ≤ mx ≤ btn.x + btn.width` and `btn.y ≤ my ≤ btn.y + btn.height`, where
the two sums are the binary32 (`float`) sums the code computes.  So whenever
this rectangle is not empty it is true at its four corners and on its four
edges, and it is false at every point strictly outside on any side.  The
rectangle is not empty whenever `btn.x`, `btn.y` are binary32 values and
`btn.width`, `btn.height` are nonnegative. -/
theorem C7_checkButtonClick_binary32 (btn : Button) (mx my : ℚ) :
    (Binary32.checkButtonClick btn mx my = true ↔
        (btn.x ≤ mx ∧ mx ≤ Binary32.add btn.x btn.width) ∧
          (btn.y ≤ my ∧ my ≤ Binary32.add btn.y btn.height)) ∧
      (btn.x ≤ Binary32.add btn.x btn.width → btn.y ≤ Binary32.add btn.y btn.height →
        Binary32.checkButtonClick btn btn.x btn.y = true ∧
          Binary32.checkButtonClick btn (Binary32.add btn.x btn.width) btn.y = true ∧
          Binary32.checkButtonClick btn btn.x (Binary32.add btn.y btn.height) = true ∧
          Binary32.checkButtonClick btn (Binary32.add btn.x btn.width)
            (Binary32.add btn.y btn.height) = true ∧
          (btn.x ≤ mx → mx ≤ Binary32.add btn.x btn.width →
            Binary32.checkButtonClick btn mx btn.y = true ∧
              Binary32.checkButtonClick btn mx (Binary32.add btn.y btn.height) = true) ∧
          (btn.y ≤ my → my ≤ Binary32.add btn.y btn.height →
            Binary32.checkButtonClick btn btn.x my = true ∧
              Binary32.checkButtonClick btn (Binary32.add btn.x btn.width) my = true)) ∧
      (mx < btn.x ∨ Binary32.add btn.x btn.width < mx ∨ my < btn.y ∨
          Binary32.add btn.y btn.height < my →
        Binary32.checkButtonClick btn mx my = false) ∧
      (IsF32 btn.x → 0 ≤ btn.width → btn.x ≤ Binary32.add btn.x btn.width) ∧
      (IsF32 btn.y → 0 ≤ btn.height → btn.y ≤ Binary32.add btn.y btn.height) := by
  have key := b32_checkButtonClick_iff btn
  refine ⟨key mx my, ?_, ?_, fun hx hw => le_rnd32 _ _ hx (by linarith),
    fun hy hh => le_rnd32 _ _ hy (by linarith)⟩
  · intro hw hh
    refine ⟨?_, ?_, ?_, ?_, ?_, ?_⟩
    · exact (key _ _).mpr ⟨⟨le_refl _, hw⟩, ⟨le_refl _, hh⟩⟩
    · exact (key _ _).mpr ⟨⟨hw, le_refl _⟩, ⟨le_refl _, hh⟩⟩
    · exact (key _ _).mpr ⟨⟨le_refl _, hw⟩, ⟨hh, le_refl _⟩⟩
    · exact (key _ _).mpr ⟨⟨hw, le_refl _⟩, ⟨hh, le_refl _⟩⟩
    · intro h1 h2
      exact ⟨(key _ _).mpr ⟨⟨h1, h2⟩, ⟨le_refl _, hh⟩⟩, (key _ _).mpr ⟨⟨h1, h2⟩, ⟨hh, le_refl _⟩⟩⟩
    · intro h1 h2
      exact ⟨(key _ _).mpr ⟨⟨le_refl _, hw⟩, ⟨h1, h2⟩⟩, (key _ _).mpr ⟨⟨hw, le_refl _⟩, ⟨h1, h2⟩⟩⟩
  · intro h
    rw [← Bool.not_eq_true, key]
    rintro ⟨⟨h1, h2⟩, ⟨h3, h4⟩⟩
    rcases h with h | h | h | h <;> linarith

set_option maxRecDepth 100000 in
theorem feedCorner_eval :
    (IsF32 Binary32.feedButton.x ∧ IsF32 Binary32.feedButton.y ∧
        IsF32 Binary32.feedButton.width ∧ IsF32 Binary32.feedButton.height ∧
        IsF32 (rnd32 0.85) ∧ IsF32 (rnd32 (-0.8))) ∧
      Binary32.checkButtonClick Binary32.feedButton (rnd32 0.85) (rnd32 (-0.8)) = true ∧
      Binary32.feedButton.x + Binary32.feedButton.width < rnd32 0.85 := by
  decide!

set_option maxRecDepth 100000 in
theorem oxygenEdge_eval :
    Binary32.checkButtonClick Binary32.oxygenButton (rnd32 (-0.45)) (rnd32 (-0.8)) = false ∧
      checkButtonClick oxygenButton (-0.45) (-0.8) = true := by
  decide!

/-- Counterexample for C7 as stated (the sums taken exactly).  With the stored
`float` fields of the feed button (`x = 0.45f`, `width = 0.4f`) the `float` sum
`x + width` rounds up to `0.85f`, so the code returns true at `mx = 0.85f`,
which lies to the right of the exact sum of the two fields.  And read in
decimals, the point `(-0.45, -0.8)` is on the right edge of the oxygen button
`[-0.85, -0.85 + 0.4]`, but the code, given the `float` values, returns false
because `-0.85f + 0.4f` is below `-0.45f`. -/
theorem C7_exact_sums_refuted :
    (Binary32.checkButtonClick Binary32.oxygenButton (rnd32 (-0.45)) (rnd32 (-0.8)) = false ∧
        checkButtonClick oxygenButton (-0.45) (-0.8) = true) ∧
      ¬ ∀ (btn : Button) (mx my : ℚ), IsF32 btn.x → IsF32 btn.y → IsF32 btn.width →
          IsF32 btn.height → IsF32 mx → IsF32 my →
          (Binary32.checkButtonClick btn mx my = true ↔
            (btn.x ≤ mx ∧ mx ≤ btn.x + btn.width) ∧ (btn.y ≤ my ∧ my ≤ btn.y + btn.height)) := by
  refine ⟨oxygenEdge_eval, fun hall => ?_⟩
  obtain ⟨⟨h1, h2, h3, h4, h5, h6⟩, hit, hlt⟩ := feedCorner_eval
  have h := (hall Binary32.feedButton (rnd32 0.85) (rnd32 (-0.8)) h1 h2 h3 h4 h5 h6).mp hit
  exact absurd h.1.2 (not_le.mpr hlt)

set_option maxRecDepth 100000 in
theorem feedRectangle_eval :
    Binary32.feedButton.x ≤ Binary32.add Binary32.feedButton.x Binary32.feedButton.width ∧
      Binary32.feedButton.y ≤ Binary32.add Binary32.feedButton.y Binary32.feedButton.height ∧
      Binary32.add Binary32.feedButton.x Binary32.feedButton.width = rnd32 0.85 ∧
      Binary32.add Binary32.feedButton.x Binary32.feedButton.width < rnd32 0.85 + 2 ^ (-24 : ℤ) ∧
      IsF32 (rnd32 0.85 + 2 ^ (-24 : ℤ)) := by
  decide!

/-- Witness for C7: the feed button's `float` rectangle is not empty, its
right edge is `0.85f`; the code returns true at its upper-right corner and
false at the next `float` to the right of it. -/
theorem C7_checkButtonClick_binary32_witness :
    Binary32.feedButton.x ≤ Binary32.add Binary32.feedButton.x Binary32.feedButton.width ∧
      Binary32.feedButton.y ≤ Binary32.add Binary32.feedButton.y Binary32.feedButton.height ∧
      Binary32.checkButtonClick Binary32.feedButton
        (Binary32.add Binary32.feedButton.x Binary32.feedButton.width)
        (Binary32.add Binary32.feedButton.y Binary32.feedButton.height) = true ∧
      Binary32.checkButtonClick Binary32.feedButton (rnd32 0.85 + 2 ^ (-24 : ℤ))
        (Binary32.add Binary32.feedButton.y Binary32.feedButton.height) = false :=
  ⟨feedRectangle_eval.1, feedRectangle_eval.2.1,
    ((C7_checkButtonClick_binary32 Binary32.feedButton 0 0).2.1 feedRectangle_eval.1
      feedRectangle_eval.2.1).2.2.2.1,
    (C7_checkButtonClick_binary32 Binary32.feedButton (rnd32 0.85 + 2 ^ (-24 : ℤ))
      (Binary32.add Binary32.feedButton.y Binary32.feedButton.height)).2.2.1
      (Or.inr (Or.inl feedRectangle_eval.2.2.2.1))⟩

/-! ## C8: click dispatch -/

theorem b32_click_feed (w : World) (px py : ℚ)
    (hit : Binary32.checkButtonClick Binary32.feedButton (Binary32.ndcX px) (Binary32.ndcY py)
      = true) :
    Binary32.mouseButtonCallback w GLFW_MOUSE_BUTTON_LEFT GLFW_PRESS px py =
      { w with foodLevel := min 1 (Binary32.add w.foodLevel (rnd32 0.8)),
               fishes := w.fishes.map Binary32.feedHappiness } := by
  unfold Binary32.mouseButtonCallback
  dsimp only
  rw [if_pos ⟨rfl, rfl⟩, if_pos hit]
  split_ifs with h1
  · rw [min_eq_left h1.le]
  · rw [min_eq_right (not_lt.mp h1)]

theorem b32_click_oxygen (w : World) (px py : ℚ)
    (miss : Binary32.checkButtonClick Binary32.feedButton (Binary32.ndcX px) (Binary32.ndcY py)
      = false)
    (hit : Binary32.checkButtonClick Binary32.oxygenButton (Binary32.ndcX px) (Binary32.ndcY py)
      = true) :
    Binary32.mouseButtonCallback w GLFW_MOUSE_BUTTON_LEFT GLFW_PRESS px py =
      { w with oxygenLevel := min 1 (Binary32.add w.oxygenLevel (rnd32 0.8)) } := by
  unfold Binary32.mouseButtonCallback
  dsimp only
  rw [if_pos ⟨rfl, rfl⟩, if_neg (by simp [miss]), if_pos hit]
  split_ifs with h1
  · rw [min_eq_left h1.le]
  · rw [min_eq_right (not_lt.mp h1)]

theorem b32_click_none (w : World) (px py : ℚ)
    (miss : Binary32.checkButtonClick Binary32.feedButton (Binary32.ndcX px) (Binary32.ndcY py)
      = false)
    (miss2 : Binary32.checkButtonClick Binary32.oxygenButton (Binary32.ndcX px)
      (Binary32.ndcY py) = false) :
    Binary32.mouseButtonCallback w GLFW_MOUSE_BUTTON_LEFT GLFW_PRESS px py = w := by
  unfold Binary32.mouseButtonCallback
  dsimp only
  rw [if_pos ⟨rfl, rfl⟩, if_neg (by simp [miss]), if_neg (by simp [miss2])]

theorem b32_feedHappiness_body (f : Fish) : (Binary32.feedHappiness f).body = f.body := by
  unfold Binary32.feedHappiness
  dsimp only
  split_ifs <;> rfl

theorem b32_mouseButtonCallback_dying (w : World) (button action : Int) (mx my : ℚ) :
    (Binary32.mouseButtonCallback w button action mx my).areFishesDying = w.areFishesDying := by
  unfold Binary32.mouseButtonCallback
  dsimp only
  split_ifs <;> rfl

theorem b32_mouseButtonCallback_body (w : World) (button action : Int) (mx my : ℚ) :
    (Binary32.mouseButtonCallback w button action mx my).fishes.map Fish.body
      = w.fishes.map Fish.body := by
  have hmap : (w.fishes.map Binary32.feedHappiness).map Fish.body = w.fishes.map Fish.body := by
    rw [List.map_map]
    exact List.map_congr_left (fun f _ => b32_feedHappiness_body f)
  unfold Binary32.mouseButtonCallback
  dsimp only
  split_ifs <;> first | rfl | exact hmap

/-- C8 (as amended). Click dispatch is mutually exclusive and framed, with the
hit test the code's own.  For a primary-button press at cursor position
`(px, py)`, let `nx`, `ny` be the normalized coordinates as the code computes
them (`px/800` and `py/600` in `double`, converted to `float`, then `*2 - 1`
and `1 - *2` in `float`) and let "hits" mean that `checkButtonClick`, with its
sums in `float`, returns true.  A click that hits the feed button leaves
`oxygenLevel` unchanged; a click that misses the feed button and hits the
oxygen button sets `oxygenLevel` to `min 1 (oxygenLevel + 0.8f)` (the sum in
`float`) and leaves everything else unchanged; a click that hits neither
leaves the whole state unchanged.  No mouse event of any kind changes
`areFishesDying` or any fish's position, velocity, size, facing or `isDying`. -/
theorem C8_click_dispatch_binary32 (w : World) (px py : ℚ) (button action : Int) :
    (Binary32.checkButtonClick Binary32.feedButton (Binary32.ndcX px) (Binary32.ndcY py) = true →
        (Binary32.mouseButtonCallback w GLFW_MOUSE_BUTTON_LEFT GLFW_PRESS px py).oxygenLevel
          = w.oxygenLevel) ∧
      (Binary32.checkButtonClick Binary32.feedButton (Binary32.ndcX px) (Binary32.ndcY py)
          = false →
        Binary32.checkButtonClick Binary32.oxygenButton (Binary32.ndcX px) (Binary32.ndcY py)
          = true →
        Binary32.mouseButtonCallback w GLFW_MOUSE_BUTTON_LEFT GLFW_PRESS px py
          = { w with oxygenLevel := min 1 (Binary32.add w.oxygenLevel (rnd32 0.8)) }) ∧
      (Binary32.checkButtonClick Binary32.feedButton (Binary32.ndcX px) (Binary32.ndcY py)
          = false →
        Binary32.checkButtonClick Binary32.oxygenButton (Binary32.ndcX px) (Binary32.ndcY py)
          = false →
        Binary32.mouseButtonCallback w GLFW_MOUSE_BUTTON_LEFT GLFW_PRESS px py = w) ∧
      (Binary32.mouseButtonCallback w button action px py).areFishesDying = w.areFishesDying ∧
      (Binary32.mouseButtonCallback w button action px py).fishes.map Fish.body
        = w.fishes.map Fish.body := by
  refine ⟨?_, b32_click_oxygen w px py, b32_click_none w px py,
    b32_mouseButtonCallback_dying _ _ _ _ _, b32_mouseButtonCallback_body _ _ _ _ _⟩
  intro hit
  rw [b32_click_feed w px py hit]

set_option maxRecDepth 100000 in
theorem column219_eval :
    Binary32.checkButtonClick Binary32.feedButton (Binary32.ndcX 219) (Binary32.ndcY 540)
        = false ∧
      Binary32.checkButtonClick Binary32.oxygenButton (Binary32.ndcX 219) (Binary32.ndcY 540)
        = true ∧
      min 1 (Binary32.add floatWorld.oxygenLevel (rnd32 0.8)) = 15099495 / 16777216 := by
  decide!

/-- Witness for C8: a press at pixel `(219, 540)` misses the feed button and
hits the oxygen button; from oxygen `0.1f` it yields the same state with
oxygen `15099495 / 2^24` (about `0.90000004`). -/
theorem C8_click_dispatch_binary32_witness :
    Binary32.checkButtonClick Binary32.feedButton (Binary32.ndcX 219) (Binary32.ndcY 540)
        = false ∧
      Binary32.checkButtonClick Binary32.oxygenButton (Binary32.ndcX 219) (Binary32.ndcY 540)
        = true ∧
      Binary32.mouseButtonCallback floatWorld GLFW_MOUSE_BUTTON_LEFT GLFW_PRESS 219 540
        = { floatWorld with oxygenLevel := 15099495 / 16777216 } := by
  refine ⟨column219_eval.1, column219_eval.2.1, ?_⟩
  rw [(C8_click_dispatch_binary32 floatWorld 219 540 0 0).2.1 column219_eval.1
    column219_eval.2.1, column219_eval.2.2]

set_option maxRecDepth 100000 in
theorem column220_eval :
    (checkButtonClick feedButton (2 * 220 / 800 - 1) (1 - 2 * 540 / 600) = false ∧
        checkButtonClick oxygenButton (2 * 220 / 800 - 1) (1 - 2 * 540 / 600) = true) ∧
      Binary32.checkButtonClick Binary32.feedButton (Binary32.ndcX 220) (Binary32.ndcY 540)
        = false ∧
      Binary32.checkButtonClick Binary32.oxygenButton (Binary32.ndcX 220) (Binary32.ndcY 540)
        = false := by
  decide!


set_option maxRecDepth 100000 in
theorem column740_eval :
    (checkButtonClick Binary32.feedButton (2 * 740 / 800 - 1) (1 - 2 * 540 / 600) = false ∧
        checkButtonClick Binary32.oxygenButton (2 * 740 / 800 - 1) (1 - 2 * 540 / 600) = false) ∧
      (Binary32.mouseButtonCallback lowWorld
          GLFW_MOUSE_BUTTON_LEFT GLFW_PRESS 740 540).foodLevel = 15099495 / 16777216 ∧
      lowWorld.foodLevel = 13421773 / 134217728 := by
  decide!

set_option maxRecDepth 100000 in
theorem column220_state_eval :
    Binary32.mouseButtonCallback lowWorld
        GLFW_MOUSE_BUTTON_LEFT GLFW_PRESS 220 540 = lowWorld := by
  decide!

/-- Counterexample for C8 as stated (exact coordinates and exact rectangle).
Read in decimals, the press at pixel `(220, 540)` has `nx = -0.45`,
`ny = -0.8`: it misses the feed button and lies on the right edge of the oxygen
button `[-0.85, -0.85 + 0.4]`, yet the callback leaves the state unchanged
(`nx` is `-0.45f`, above the `float` sum `-0.85f + 0.4f`).  Read on the stored
`float` fields, the press at pixel `(740, 540)` has exact `nx = 0.85`, to the
right of the exact sum of the feed button's fields and far from the oxygen
button, yet the callback feeds (food `0.1f` becomes about `0.9`). -/
theorem C8_exact_hit_test_refuted :
    ((checkButtonClick feedButton (2 * 220 / 800 - 1) (1 - 2 * 540 / 600) = false ∧
          checkButtonClick oxygenButton (2 * 220 / 800 - 1) (1 - 2 * 540 / 600) = true) ∧
        Binary32.mouseButtonCallback lowWorld
          GLFW_MOUSE_BUTTON_LEFT GLFW_PRESS 220 540 = lowWorld) ∧
      ¬ ∀ (w : World) (px py : ℚ),
          checkButtonClick Binary32.feedButton (2 * px / 800 - 1) (1 - 2 * py / 600) = false →
          checkButtonClick Binary32.oxygenButton (2 * px / 800 - 1) (1 - 2 * py / 600) = false →
          Binary32.mouseButtonCallback w GLFW_MOUSE_BUTTON_LEFT GLFW_PRESS px py = w := by
  refine ⟨⟨column220_eval.1, column220_state_eval⟩, fun hall => ?_⟩
  obtain ⟨⟨m1, m2⟩, hfood, h01⟩ := column740_eval
  have h := congrArg World.foodLevel (hall lowWorld 740 540 m1 m2)
  rw [hfood, h01] at h
  norm_num at h

/-! ## C9: tank bounds after a swimming update -/

theorem b32_clamp_bound (x1 h : ℚ) (h0 : 0 ≤ h) (h1 : h ≤ 1) :
    -1 + h - 2 ^ (-24 : ℤ) ≤
        (if Binary32.sub x1 h < -1 then Binary32.add (-1) h
          else if Binary32.add x1 h > 1 then Binary32.sub 1 h else x1) ∧
      (if Binary32.sub x1 h < -1 then Binary32.add (-1) h
          else if Binary32.add x1 h > 1 then Binary32.sub 1 h else x1) ≤
        1 - h + 2 ^ (-24 : ℤ) := by
  unfold Binary32.sub Binary32.add
  split_ifs with a b
  · obtain ⟨e1, e2⟩ := rnd32_error_unit (-1 + h) (abs_le.mpr ⟨by linarith, by linarith⟩)
    constructor <;> linarith
  · obtain ⟨e1, e2⟩ := rnd32_error_unit (1 - h) (abs_le.mpr ⟨by linarith, by linarith⟩)
    constructor <;> linarith
  · have ha : -1 - 2 ^ (-24 : ℤ) ≤ x1 - h := by
      by_contra hc
      exact a (rnd32_lt_neg_one _ (not_le.mp hc))
    have hb : x1 + h ≤ 1 + 2 ^ (-24 : ℤ) := by
      by_contra hc
      exact b (rnd32_gt_one _ (not_le.mp hc))
    constructor <;> linarith

/-- C9 (as amended). Tank-bounds postcondition of a swimming update, in
binary32 arithmetic.  For a fish with `isDying` false and `0 ≤ size ≤ 2`, from
any position and velocity and for any `dt`, after `updateFish` the position
lies within the tank minus the half-extent up to one rounding error:
`-1 + hx - 2^-24 ≤ x ≤ 1 - hx + 2^-24` and
`-1 + hy - 2^-24 ≤ y ≤ 1 - hy + 2^-24`, where `hx = size/2` and
`hy = hx * (600/800)` are the `float` half-extents the code computes. -/
theorem C9_tank_bounds_binary32 (f : Fish) (dt : ℚ) (hs : f.isDying = false)
    (h0 : 0 ≤ f.size) (h2 : f.size ≤ 2) :
    (-1 + Binary32.div f.size 2 - 2 ^ (-24 : ℤ) ≤ (Binary32.updateFish f dt).x ∧
        (Binary32.updateFish f dt).x ≤ 1 - Binary32.div f.size 2 + 2 ^ (-24 : ℤ)) ∧
      (-1 + Binary32.mul (Binary32.div f.size 2) (3 / 4) - 2 ^ (-24 : ℤ)
          ≤ (Binary32.updateFish f dt).y ∧
        (Binary32.updateFish f dt).y
          ≤ 1 - Binary32.mul (Binary32.div f.size 2) (3 / 4) + 2 ^ (-24 : ℤ)) := by
  have hx0 : 0 ≤ Binary32.div f.size 2 := rnd32_nonneg _ (by linarith)
  have hx1 : Binary32.div f.size 2 ≤ 1 := rnd32_le_one _ (by linarith)
  have hy0 : 0 ≤ Binary32.mul (Binary32.div f.size 2) (3 / 4) := rnd32_nonneg _ (by linarith)
  have hy1 : Binary32.mul (Binary32.div f.size 2) (3 / 4) ≤ 1 := rnd32_le_one _ (by linarith)
  rw [b32_updateFish_swim_x f dt hs, b32_updateFish_swim_y f dt hs]
  exact ⟨b32_clamp_bound _ _ hx0 hx1, b32_clamp_bound _ _ hy0 hy1⟩

set_option maxRecDepth 100000 in
theorem nearWallFish_eval :
    (IsF32 (nearWallFish 0).x ∧ IsF32 (nearWallFish 0).dx ∧ IsF32 (nearWallFish 0).size ∧
        IsF32 0) ∧
      (0 ≤ (nearWallFish 0).size ∧ (nearWallFish 0).size ≤ 2) ∧
      (Binary32.updateFish (nearWallFish 0) 0).x = 0.875 + 2 ^ (-24 : ℤ) ∧
      1 - (nearWallFish 0).size / 2 = 0.875 ∧
      Binary32.sub 1 (Binary32.div (nearWallFish 0).size 2) = 0.875 := by
  decide!

/-- Counterexample for C9 as stated (the exact bound).  The swimming fish at
`x = 0.875 + 2^-24` with `size = 0.25` and `dt = 0` (all binary32 values)
passes both wall tests of the code, because the `float` sum `x + 0.125` rounds
to exactly `1`; it stays at `x = 0.875 + 2^-24`, above `1 - size/2 = 0.875`
(which is also the value of the bound computed in `float`). -/
theorem C9_exact_bound_refuted :
    ¬ ∀ (f : Fish) (dt : ℚ), IsF32 f.x → IsF32 f.dx → IsF32 f.size → IsF32 dt →
        f.isDying = false → 0 ≤ f.size → f.size ≤ 2 →
        (Binary32.updateFish f dt).x ≤ 1 - f.size / 2 := by
  intro hall
  obtain ⟨⟨h1, h2, h3, h4⟩, ⟨h5, h6⟩, h7, h8, _⟩ := nearWallFish_eval
  have h := hall (nearWallFish 0) 0 h1 h2 h3 h4 rfl h5 h6
  rw [h7, h8] at h
  norm_num at h

/-- Witness for C9: the fish at `x = 0.875 + 2^-24`, `size = 0.25`, `dt = 0`
stays where it is, within `2^-24` of the bound `1 - hx = 0.875`. -/
theorem C9_tank_bounds_binary32_witness :
    (nearWallFish 0).isDying = false ∧
      (0 ≤ (nearWallFish 0).size ∧ (nearWallFish 0).size ≤ 2) ∧
      (Binary32.updateFish (nearWallFish 0) 0).x = 0.875 + 2 ^ (-24 : ℤ) ∧
      (Binary32.updateFish (nearWallFish 0) 0).x
        ≤ 1 - Binary32.div (nearWallFish 0).size 2 + 2 ^ (-24 : ℤ) :=
  ⟨rfl, nearWallFish_eval.2.1, nearWallFish_eval.2.2.1,
    (C9_tank_bounds_binary32 (nearWallFish 0) 0 rfl nearWallFish_eval.2.1.1
      nearWallFish_eval.2.1.2).1.2⟩

/-! ## C10: facing and the sign of the horizontal velocity -/

theorem wallRun_reachable (s : World × RandStream) (h : wallRun = some s) : Reachable 8 s := by
  unfold wallRun at h
  obtain ⟨p, hp, rfl⟩ := Option.map_eq_some'.mp h
  have h0 : Reachable 8 (⟨p.1, 1, 1, false⟩, p.2) :=
    Reachable.start 1 _ p.2 p.1 1 1 hp (by norm_num) (by norm_num) (by norm_num) (by norm_num)
  have h1 := Reachable.frame _ (1 / 60) h0 (by norm_num)
  exact h1

set_option maxRecDepth 100000 in
theorem wallRun_faces_right_moves_left :
    wallRun.map (fun s => s.1.fishes.map (fun f => (f.isDying, f.facingRight, f.x, f.dx)))
      = some (List.replicate 8 (false, true, -0.8895, -0.005)) := by
  decide!

set_option maxRecDepth 100000 in
theorem sunkRun_revive_faces_right_moves_left :
    (sunkRun 0).map (fun s => (s.1.fishes.map (fun f => (f.isDying, f.facingRight, f.dx)),
        (frameStep s.1 s.2 (1 / 60)).1.fishes.map (fun f => (f.isDying, f.facingRight, f.dx))))
      = some (List.replicate 8 (true, true, 0), List.replicate 8 (false, true, -0.5)) := by
  decide!

/-- C10 (the code departs from the claim). Two runs of `main` reach a state
in which swimming fish have `facingRight = true` while `dx < 0`.
(1) `wallRun`: every fish is spawned at `x = -0.899` with `size = 0.221` and
`dx = 0.005`, so in the first frame `x - size/2 < -1` holds and `updateFish`
negates `dx` and sets `facingRight = true`: the fish has bounced off the left
wall and moves left (`dx = -0.005`) facing right.
(2) `sunkRun 0`: the fish were facing right when they sank; the leave-dying
frame redraws `dx = -0.5` and does not recompute `facingRight`.
Hence `facingRight = true ↔ dx > 0` is not an invariant of the swimming fish in
reachable states. -/
theorem C10_facing_not_velocity_sign :
    wallRun.map (fun s => s.1.fishes.map (fun f => (f.isDying, f.facingRight, f.x, f.dx)))
        = some (List.replicate 8 (false, true, -0.8895, -0.005)) ∧
      (sunkRun 0).map (fun s => (s.1.fishes.map (fun f => (f.isDying, f.facingRight, f.dx)),
          (frameStep s.1 s.2 (1 / 60)).1.fishes.map (fun f => (f.isDying, f.facingRight, f.dx))))
        = some (List.replicate 8 (true, true, 0), List.replicate 8 (false, true, -0.5)) ∧
      ¬ ∀ s : World × RandStream, Reachable 8 s →
          ∀ f ∈ s.1.fishes, f.isDying = false → (f.facingRight = true ↔ f.dx > 0) := by
  refine ⟨wallRun_faces_right_moves_left, sunkRun_revive_faces_right_moves_left, ?_⟩
  intro hall
  obtain ⟨s, hs, hv⟩ := Option.map_eq_some'.mp wallRun_faces_right_moves_left
  have hr := wallRun_reachable s hs
  cases hfs : s.1.fishes with
  | nil =>
    rw [hfs] at hv
    exact absurd hv (by decide)
  | cons f fs =>
    have hf : f ∈ s.1.fishes := by rw [hfs]; exact List.mem_cons_self f fs
    have hm : (f.isDying, f.facingRight, f.x, f.dx)
        ∈ List.replicate 8 ((false, true, -0.8895, -0.005) : Bool × Bool × ℚ × ℚ) := by
      rw [← hv]
      exact List.mem_map_of_mem (fun f => (f.isDying, f.facingRight, f.x, f.dx)) hf
    have he := (List.mem_replicate.mp hm).2
    simp only [Prod.mk.injEq] at he
    have hpos := (hall s hr f hf he.1).mp he.2.1
    rw [he.2.2.2] at hpos
    norm_num at hpos

/-! ## C11: postcondition of `initFishes` -/

theorem drawVelocity_succ (fuel : Nat) (r : RandStream) :
    drawVelocity (fuel + 1) r =
      if (((r.seq r.pos % 200 : Nat) : ℚ) / 100 - 1) * 0.5 = 0 ∨
          (((r.seq (r.pos + 1) % 200 : Nat) : ℚ) / 100 - 1) * 0.3 = 0 then
        drawVelocity fuel { seq := r.seq, pos := r.pos + 1 + 1 }
      else
        some (((((r.seq r.pos % 200 : Nat) : ℚ) / 100 - 1) * 0.5,
          (((r.seq (r.pos + 1) % 200 : Nat) : ℚ) / 100 - 1) * 0.3),
          { seq := r.seq, pos := r.pos + 1 + 1 }) := rfl

theorem draw_bounds (n m : Nat) (c : ℚ) (hc : 0 ≤ c) :
    -c ≤ (((n % (2 * (m + 1)) : Nat) : ℚ) / (m + 1) - 1) * c ∧
      (((n % (2 * (m + 1)) : Nat) : ℚ) / (m + 1) - 1) * c ≤ c := by
  have hlt : n % (2 * (m + 1)) < 2 * (m + 1) := Nat.mod_lt _ (by omega)
  have h1 : ((n % (2 * (m + 1)) : Nat) : ℚ) ≤ 2 * ((m : ℚ) + 1) := by exact_mod_cast hlt.le
  have h0 : (0 : ℚ) ≤ ((n % (2 * (m + 1)) : Nat) : ℚ) := Nat.cast_nonneg _
  have hm : (0 : ℚ) < (m : ℚ) + 1 := by positivity
  have ha : -1 ≤ ((n % (2 * (m + 1)) : Nat) : ℚ) / (m + 1) - 1 := by
    have : 0 ≤ ((n % (2 * (m + 1)) : Nat) : ℚ) / (m + 1) := div_nonneg h0 hm.le
    linarith
  have hb : ((n % (2 * (m + 1)) : Nat) : ℚ) / (m + 1) - 1 ≤ 1 := by
    have : ((n % (2 * (m + 1)) : Nat) : ℚ) / (m + 1) ≤ 2 := by
      rw [div_le_iff₀ hm]; linarith
    linarith
  constructor <;> nlinarith

theorem drawVelocity_post (fuel : Nat) (r : RandStream) (v : ℚ × ℚ) (r2 : RandStream)
    (h : drawVelocity fuel r = some (v, r2)) :
    (v.1 ≠ 0 ∧ v.2 ≠ 0) ∧ (-0.5 ≤ v.1 ∧ v.1 ≤ 0.5) ∧ (-0.3 ≤ v.2 ∧ v.2 ≤ 0.3) ∧
      r2.seq = r.seq ∧ r.pos ≤ r2.pos := by
  induction fuel generalizing r with
  | zero => exact absurd h (by simp [drawVelocity])
  | succ fuel ih =>
    rw [drawVelocity_succ] at h
    split_ifs at h with hz
    · obtain ⟨h1, h2, h3, h4, h5⟩ := ih _ h
      exact ⟨h1, h2, h3, h4, by dsimp only at h5; omega⟩
    · simp only [Option.some.injEq, Prod.mk.injEq] at h
      obtain ⟨rfl, rfl⟩ := h
      have hx := draw_bounds (r.seq r.pos) 99 0.5 (by norm_num)
      have hy := draw_bounds (r.seq (r.pos + 1)) 99 0.3 (by norm_num)
      norm_num at hx hy
      push_neg at hz
      refine ⟨hz, ?_, ?_, rfl, by dsimp only; omega⟩
      · dsimp only; constructor <;> norm_num <;> linarith
      · dsimp only; constructor <;> norm_num <;> linarith

theorem initLoop_succ (fuel n : Nat) (acc : List Fish) (r : RandStream) :
    initLoop fuel (n + 1) acc r =
      match drawVelocity fuel { seq := r.seq, pos := r.pos + 1 + 1 + 1 } with
      | none => none
      | some (v, r2) =>
        initLoop fuel n
          (acc ++ [{ x := ((r.seq (r.pos + 1) % 2000 : Nat) : ℚ) / 1000 - 1,
                     y := ((r.seq (r.pos + 1 + 1) % 2000 : Nat) : ℚ) / 1000 - 1,
                     dx := v.1, dy := v.2,
                     size := 0.15 + ((r.seq r.pos % 90 : Nat) : ℚ) / 1000,
                     facingRight := decide (v.1 > 0), happiness := 1 }]) r2 := rfl

theorem spawn_bounds (a b c : Nat) :
    ((0.15 : ℚ) ≤ 0.15 + ((a % 90 : Nat) : ℚ) / 1000 ∧
        0.15 + ((a % 90 : Nat) : ℚ) / 1000 ≤ 0.24) ∧
      ((-1 : ℚ) ≤ ((b % 2000 : Nat) : ℚ) / 1000 - 1 ∧ ((b % 2000 : Nat) : ℚ) / 1000 - 1 ≤ 1) ∧
      ((-1 : ℚ) ≤ ((c % 2000 : Nat) : ℚ) / 1000 - 1 ∧ ((c % 2000 : Nat) : ℚ) / 1000 - 1 ≤ 1) := by
  have ha : ((a % 90 : Nat) : ℚ) ≤ 90 := by exact_mod_cast (Nat.mod_lt a (by norm_num)).le
  have hb : ((b % 2000 : Nat) : ℚ) ≤ 2000 := by exact_mod_cast (Nat.mod_lt b (by norm_num)).le
  have hc : ((c % 2000 : Nat) : ℚ) ≤ 2000 := by exact_mod_cast (Nat.mod_lt c (by norm_num)).le
  have ha0 : (0 : ℚ) ≤ ((a % 90 : Nat) : ℚ) := Nat.cast_nonneg _
  have hb0 : (0 : ℚ) ≤ ((b % 2000 : Nat) : ℚ) := Nat.cast_nonneg _
  have hc0 : (0 : ℚ) ≤ ((c % 2000 : Nat) : ℚ) := Nat.cast_nonneg _
  refine ⟨⟨?_, ?_⟩, ⟨?_, ?_⟩, ⟨?_, ?_⟩⟩ <;> norm_num <;> linarith

theorem initLoop_post (fuel n : Nat) (acc : List Fish) (r : RandStream) (fs : List Fish)
    (r2 : RandStream) (h : initLoop fuel n acc r = some (fs, r2)) :
    fs.length = acc.length + n ∧ ((∀ f ∈ acc, Spawned f) → ∀ f ∈ fs, Spawned f) := by
  induction n generalizing acc r with
  | zero =>
    simp only [initLoop, Option.some.injEq, Prod.mk.injEq] at h
    obtain ⟨rfl, _⟩ := h
    exact ⟨rfl, fun hacc => hacc⟩
  | succ n ih =>
    rw [initLoop_succ] at h
    cases hd : drawVelocity fuel { seq := r.seq, pos := r.pos + 1 + 1 + 1 } with
    | none => rw [hd] at h; exact absurd h (by simp)
    | some res =>
      obtain ⟨v, r3⟩ := res
      rw [hd] at h
      obtain ⟨hlen, hall⟩ := ih _ _ h
      obtain ⟨hnz, hdx, hdy, _, _⟩ := drawVelocity_post _ _ _ _ hd
      have hb := spawn_bounds (r.seq r.pos) (r.seq (r.pos + 1)) (r.seq (r.pos + 1 + 1))
      refine ⟨?_, fun hacc => hall ?_⟩
      · rw [hlen, List.length_append, List.length_singleton]; omega
      · intro f hf
        rcases List.mem_append.mp hf with hf | hf
        · exact hacc f hf
        · rw [List.mem_singleton] at hf
          subst hf
          exact ⟨hb.1, hb.2.1, hb.2.2, hdx, hdy, hnz.1, hnz.2, rfl, rfl, rfl⟩

set_option maxRecDepth 100000 in
theorem initFishes_const :
    initFishes 1 8 (constRand 1150) = some (List.replicate 8 spawnedFish, spawnState.2) := by
  norm_num [initFishes, initLoop, drawVelocity, rand, constRand, spawnedFish, spawnState]
  rfl

theorem tickFish_eq (d : Bool) (food dt : ℚ) (f : Fish) :
    tickFish d food dt f = updateFish (beforeUpdate d food dt f) dt := rfl

theorem beforeUpdate_isDying (d : Bool) (food dt : ℚ) (f : Fish) :
    (beforeUpdate d food dt f).isDying = (d || f.isDying) := by
  unfold beforeUpdate
  cases d <;> simp only [Bool.false_eq_true, if_false, if_true, Bool.true_or, Bool.false_or] <;>
    split_ifs <;> rfl

theorem reviveFishes_isDying (fs : List Fish) (r : RandStream) :
    ∀ f ∈ (reviveFishes fs r).1, f.isDying = false := by
  induction fs generalizing r with
  | nil => intro f hf; exact absurd hf (List.not_mem_nil f)
  | cons g gs ih =>
    intro f hf
    simp only [reviveFishes, List.mem_cons] at hf
    rcases hf with rfl | hf
    · rfl
    · exact ih _ f hf

theorem dyingTransition_flags (w : World) (r : RandStream) (hw : FlagsTrack w) :
    ∀ f ∈ (dyingTransition w r).1.fishes,
      (dyingTransition w r).1.areFishesDying = false → f.isDying = false := by
  unfold dyingTransition
  split_ifs with h1 h2
  · intro f _ hd
    exact absurd hd (by simp)
  · intro f hf _
    exact reviveFishes_isDying _ _ f hf
  · intro f hf hd
    rw [hw f hf]
    exact hd

theorem frameStep_fishes (w : World) (r : RandStream) (dt : ℚ) :
    (frameStep w r dt).1.fishes =
      (dyingTransition (decayLevels w dt) r).1.fishes.map
        (tickFish (frameStep w r dt).1.areFishesDying (frameStep w r dt).1.foodLevel dt) := rfl

theorem decayLevels_flags (w : World) (dt : ℚ) (hw : FlagsTrack w) :
    FlagsTrack (decayLevels w dt) := by
  intro f hf
  rw [decayLevels_fishes] at hf
  rw [decayLevels_dying]
  exact hw f hf

theorem frameStep_handed (w : World) (r : RandStream) (dt : ℚ) (hw : FlagsTrack w) :
    ∀ f ∈ (dyingTransition (decayLevels w dt) r).1.fishes,
      (beforeUpdate (frameStep w r dt).1.areFishesDying (frameStep w r dt).1.foodLevel dt f).isDying
        = (frameStep w r dt).1.areFishesDying := by
  intro f hf
  rw [beforeUpdate_isDying]
  have h := dyingTransition_flags (decayLevels w dt) r (decayLevels_flags w dt hw) f hf
  rw [← frameStep_dying] at h
  cases hd : (frameStep w r dt).1.areFishesDying with
  | true => rfl
  | false => rw [h hd]; rfl

theorem frameStep_flags (w : World) (r : RandStream) (dt : ℚ) (hw : FlagsTrack w) :
    FlagsTrack (frameStep w r dt).1 := by
  intro f hf
  rw [frameStep_fishes] at hf
  obtain ⟨g, hg, rfl⟩ := List.mem_map.mp hf
  rw [tickFish_eq, updateFish_isDying]
  exact frameStep_handed w r dt hw g hg

theorem mouseButtonCallback_isDying (w : World) (button action : Int) (mx my : ℚ) :
    (mouseButtonCallback w button action mx my).fishes.map Fish.isDying
      = w.fishes.map Fish.isDying := by
  have h := congrArg (List.map (fun b : ℚ × ℚ × ℚ × ℚ × ℚ × Bool × Bool => b.2.2.2.2.2.2))
    (mouseButtonCallback_body w button action mx my)
  rw [List.map_map, List.map_map] at h
  exact h

theorem mouseButtonCallback_flags (w : World) (button action : Int) (mx my : ℚ)
    (hw : FlagsTrack w) : FlagsTrack (mouseButtonCallback w button action mx my) := by
  have hall : ∀ b ∈ w.fishes.map Fish.isDying, b = w.areFishesDying := by
    intro b hb
    obtain ⟨g, hg, rfl⟩ := List.mem_map.mp hb
    exact hw g hg
  intro f hf
  rw [mouseButtonCallback_dying]
  apply hall
  rw [← mouseButtonCallback_isDying w button action mx my]
  exact List.mem_map_of_mem Fish.isDying hf

theorem initFishes_flags (fuel : Nat) (count : Int) (r r2 : RandStream) (fs : List Fish)
    (h : initFishes fuel count r = some (fs, r2)) : ∀ f ∈ fs, f.isDying = false := by
  intro f hf
  have hall := (initLoop_post fuel count.toNat [] r fs r2 h).2
    (fun g hg => absurd hg (List.not_mem_nil g)) f hf
  exact hall.2.2.2.2.2.2.2.2.2

theorem reachable_flags (count : Int) (s : World × RandStream) (h : Reachable count s) :
    FlagsTrack s.1 := by
  induction h with
  | start fuel r r2 fs oxygen food hinit _ _ _ _ =>
    exact initFishes_flags fuel count r r2 fs hinit
  | frame s dt _ _ ih => exact frameStep_flags s.1 s.2 dt ih
  | click s button action mx my _ ih => exact mouseButtonCallback_flags s.1 button action mx my ih

theorem spawnState_reachable : Reachable 8 spawnState :=
  Reachable.start 1 (constRand 1150) spawnState.2 (List.replicate 8 spawnedFish) 1 1
    initFishes_const (by norm_num) (by norm_num) (by norm_num) (by norm_num)

/-- C12. Per-fish dying flags track the global mode.  In every state
reachable from `initFishes` (all `isDying` false, `areFishesDying` false) by
frame steps and mouse events, each fish's `isDying` equals `areFishesDying`;
this holds again after any further frame step, during which every fish handed
to `updateFish` has `isDying` equal to the frame's `areFishesDying`, so that
`updateFish` takes its sinking branch exactly when the global dying mode is
active; and a mouse event changes neither `areFishesDying` nor any fish's
`isDying`. -/
theorem C12_dying_flags_track (count : Int) (s : World × RandStream)
    (h : Reachable count s) :
    FlagsTrack s.1 ∧
      (∀ dt : ℚ, FlagsTrack (frameStep s.1 s.2 dt).1 ∧
        (frameStep s.1 s.2 dt).1.fishes =
          (dyingTransition (decayLevels s.1 dt) s.2).1.fishes.map (fun f =>
            updateFish (beforeUpdate (frameStep s.1 s.2 dt).1.areFishesDying
              (frameStep s.1 s.2 dt).1.foodLevel dt f) dt) ∧
        ∀ f ∈ (dyingTransition (decayLevels s.1 dt) s.2).1.fishes,
          (beforeUpdate (frameStep s.1 s.2 dt).1.areFishesDying
              (frameStep s.1 s.2 dt).1.foodLevel dt f).isDying
            = (frameStep s.1 s.2 dt).1.areFishesDying) ∧
      (∀ (button action : Int) (mx my : ℚ),
        (mouseButtonCallback s.1 button action mx my).areFishesDying = s.1.areFishesDying ∧
        (mouseButtonCallback s.1 button action mx my).fishes.map Fish.isDying
          = s.1.fishes.map Fish.isDying) := by
  have hs := reachable_flags count s h
  refine ⟨hs, fun dt => ⟨frameStep_flags s.1 s.2 dt hs, rfl, frameStep_handed s.1 s.2 dt hs⟩,
    fun button action mx my => ⟨mouseButtonCallback_dying _ _ _ _ _,
      mouseButtonCallback_isDying _ _ _ _ _⟩⟩

set_option maxRecDepth 100000 in
theorem spawnState_starved :
    ((frameStep spawnState.1 spawnState.2 30).1.areFishesDying,
        (frameStep spawnState.1 spawnState.2 30).1.fishes.map Fish.isDying)
      = (true, List.replicate 8 true) := by
  decide!

/-- Witness for C12: the state after `initFishes(8)` with every `rand()` equal
to `1150` is reachable; after a frame of `30` seconds the food level is `0`,
the tank is in dying mode and all eight fish have `isDying` true. -/
theorem C12_dying_flags_track_witness :
    Reachable 8 spawnState ∧ FlagsTrack spawnState.1 ∧
      FlagsTrack (frameStep spawnState.1 spawnState.2 30).1 ∧
      ((frameStep spawnState.1 spawnState.2 30).1.areFishesDying,
          (frameStep spawnState.1 spawnState.2 30).1.fishes.map Fish.isDying)
        = (true, List.replicate 8 true) :=
  ⟨spawnState_reachable, (C12_dying_flags_track 8 spawnState spawnState_reachable).1,
    ((C12_dying_flags_track 8 spawnState spawnState_reachable).2.1 30).1, spawnState_starved⟩

end Aquiriam
